import Mathlib

/-!
Verification development for a 2D stable-fluids solver (Jos Stam's scheme).

The repository contains two variants of the same solver:
* a sequential variant (an inline script, `part_000`) operating on
  `Float32Array` buffers of size `(N+2)^2` with in-place Gauss-Seidel
  relaxation, and
* a parallel WebGL variant (`2d-webgl/index.js` + `2d-webgl/gl.js`) where each
  pass is a fragment shader reading a frozen source texture and writing a
  distinct destination texture (double buffering).

Scalars are modelled by exact rationals `ℚ`; a grid is a flattened list of
`(N+2)*(N+2)` scalars indexed by `IX(i, j) = i + j*(N+2)`, exactly as the
source indexes its arrays.  All array accesses performed by the embedded code
are in bounds for well-sized grids, so the out-of-bounds default of `getF`
never influences the modelled behaviour.
-/

set_option maxRecDepth 1000000

namespace Fluid

/-- A simulation grid: the flattened `(N+2) × (N+2)` scalar buffer
(`new Float32Array(SIZE)` in the source), modelled with exact rationals. -/
abbrev Grid := List ℚ

/-- Array read `x[p]` (reads performed by the embedded code are in bounds). -/
def getF (x : Grid) (p : ℕ) : ℚ := x.getD p 0

/-- Array write `x[p] = v`. -/
def setF (x : Grid) (p : ℕ) (v : ℚ) : Grid := x.set p v

/-- Flattened index: `function IX(i, j) { return i + j * CSB; }` with
`CSB = N + 2`. -/
def IX (N i j : ℕ) : ℕ := i + j * (N + 2)

/-- Interior cell coordinates in the iteration order of the source
(`for (i = 1; i <= N; i++) for (j = 1; j <= N; j++)`). -/
def interior (N : ℕ) : List (ℕ × ℕ) :=
  (List.range' 1 N).flatMap (fun i => (List.range' 1 N).map (fun j => (i, j)))

/-- Body of the edge loop of `setBoundary` for one index `i`: the four in-place
writes `x[IX(0,i)]`, `x[IX(N+1,i)]`, `x[IX(i,0)]`, `x[IX(i,N+1)]`, in source
order, each reading the current array. -/
def edgeStep (N b i : ℕ) (y : Grid) : Grid :=
  let y1 := setF y (IX N 0 i) (if b = 1 then -(getF y (IX N 1 i)) else getF y (IX N 1 i))
  let y2 := setF y1 (IX N (N + 1) i)
    (if b = 1 then -(getF y1 (IX N N i)) else getF y1 (IX N N i))
  let y3 := setF y2 (IX N i 0) (if b = 2 then -(getF y2 (IX N i 1)) else getF y2 (IX N i 1))
  setF y3 (IX N i (N + 1)) (if b = 2 then -(getF y3 (IX N i N)) else getF y3 (IX N i N))

/-- Edge loop of `setBoundary`: `for (i = 1; i <= N; i++) { ... }`. -/
def edgeLoop (N b : ℕ) (x : Grid) : Grid :=
  (List.range' 1 N).foldl (fun y i => edgeStep N b i y) x

/-- Sequential `setBoundary(target, boundary)`: the edge loop over `i = 1..N`
followed by the four corner writes, all in place, in source order. -/
def setBoundary (N b : ℕ) (x : Grid) : Grid :=
  let y := edgeLoop N b x
  let y1 := setF y (IX N 0 0) ((1 / 2) * (getF y (IX N 1 0) + getF y (IX N 0 1)))
  let y2 := setF y1 (IX N 0 (N + 1))
    ((1 / 2) * (getF y1 (IX N 1 (N + 1)) + getF y1 (IX N 0 N)))
  let y3 := setF y2 (IX N (N + 1) 0)
    ((1 / 2) * (getF y2 (IX N N 0) + getF y2 (IX N (N + 1) 1)))
  setF y3 (IX N (N + 1) (N + 1))
    ((1 / 2) * (getF y3 (IX N N (N + 1)) + getF y3 (IX N (N + 1) N)))

/-- One Gauss-Seidel relaxation sweep of `solveLinear`: the in-place update
`x[IX(i,j)] = (x0[IX(i,j)] + a*(x[IX(i-1,j)] + x[IX(i+1,j)] + x[IX(i,j-1)] +
x[IX(i,j+1)])) * (1/c)` over all interior cells, reading the current array. -/
def sweep (N : ℕ) (a cc : ℚ) (x0 y : Grid) : Grid :=
  (interior N).foldl (fun y ij =>
    setF y (IX N ij.1 ij.2)
      ((getF x0 (IX N ij.1 ij.2) +
        a * (getF y (IX N (ij.1 - 1) ij.2) + getF y (IX N (ij.1 + 1) ij.2) +
             getF y (IX N ij.1 (ij.2 - 1)) + getF y (IX N ij.1 (ij.2 + 1)))) * (1 / cc))) y

/-- Sequential `solveLinear(x, x0, boundary, a, c)`: twenty relaxation sweeps,
each followed by `setBoundary(x, boundary)`. -/
def solveLinear (N : ℕ) (x x0 : Grid) (b : ℕ) (a cc : ℚ) : Grid :=
  (fun y => setBoundary N b (sweep N a cc x0 y))^[20] x

/-- Sequential `diffuse(dt, target, source, diff, boundary)`:
`a = dt * diff * N * N` and `solveLinear(target, source, boundary, a, 1+4a)`. -/
def diffuse (N : ℕ) (dt : ℚ) (target source : Grid) (diff : ℚ) (b : ℕ) : Grid :=
  let a := dt * diff * (N : ℚ) * (N : ℚ)
  solveLinear N target source b a (1 + 4 * a)

/-- The two sequential clamps of `advect`:
`if (x < 0.5) x = 0.5; if (x > N + 0.5) x = N + 0.5;`. -/
def clampSeq (N : ℕ) (t : ℚ) : ℚ :=
  let t1 := if t < 1 / 2 then 1 / 2 else t
  if t1 > (N : ℚ) + 1 / 2 then (N : ℚ) + 1 / 2 else t1

/-- Backtraced (and clamped) coordinate of `advect` along one axis:
`x = i - dt0 * u[IX(i, j)]` followed by the clamps, where `q` is the velocity
component value read at the cell. -/
def backPos (N : ℕ) (dt0 q : ℚ) (i : ℕ) : ℚ := clampSeq N ((i : ℚ) - dt0 * q)

/-- Lower bilinear corner index (`i0 = x | 0` in the source; the clamped
coordinate is at least `1/2 > 0`, so the JS truncation is the floor). -/
def idx0 (N : ℕ) (dt0 q : ℚ) (i : ℕ) : ℕ := (⌊backPos N dt0 q i⌋).toNat

/-- Value written by `advect` into interior cell `(i, j)` of the target:
semi-Lagrangian backtrace plus bilinear interpolation of the source. -/
def advectVal (N : ℕ) (dt0 : ℚ) (source u v : Grid) (i j : ℕ) : ℚ :=
  let x := backPos N dt0 (getF u (IX N i j)) i
  let y := backPos N dt0 (getF v (IX N i j)) j
  let i0 := idx0 N dt0 (getF u (IX N i j)) i
  let i1 := i0 + 1
  let j0 := idx0 N dt0 (getF v (IX N i j)) j
  let j1 := j0 + 1
  let s1 := x - (i0 : ℚ)
  let s0 := 1 - s1
  let t1 := y - (j0 : ℚ)
  let t0 := 1 - t1
  s0 * (t0 * getF source (IX N i0 j0) + t1 * getF source (IX N i0 j1)) +
    s1 * (t0 * getF source (IX N i1 j0) + t1 * getF source (IX N i1 j1))

/-- Sequential `advect(dt, target, source, u, v, boundary)`: `dt0 = dt * N`,
one pass writing every interior cell of the target, then
`setBoundary(target, boundary)`. -/
def advect (N : ℕ) (dt : ℚ) (target source u v : Grid) (b : ℕ) : Grid :=
  let dt0 := dt * (N : ℚ)
  setBoundary N b
    ((interior N).foldl (fun y ij =>
      setF y (IX N ij.1 ij.2) (advectVal N dt0 source u v ij.1 ij.2)) target)

/-- Discrete divergence written by `project` (with `h = N` as in the source):
`div[IX(i,j)] = -0.5 * h * (u[IX(i+1,j)] - u[IX(i-1,j)] + v[IX(i,j+1)] -
v[IX(i,j-1)])`. -/
def divVal (N : ℕ) (u v : Grid) (i j : ℕ) : ℚ :=
  -(1 / 2) * (N : ℚ) *
    (getF u (IX N (i + 1) j) - getF u (IX N (i - 1) j) +
     getF v (IX N i (j + 1)) - getF v (IX N i (j - 1)))

/-- Sequential `project(u, v, p, div)`.  Returns the four mutated buffers
`(u, v, p, div)` in argument order. -/
def project (N : ℕ) (u v p div : Grid) : Grid × Grid × Grid × Grid :=
  let dp := (interior N).foldl (fun (dp : Grid × Grid) ij =>
      (setF dp.1 (IX N ij.1 ij.2) (divVal N u v ij.1 ij.2),
       setF dp.2 (IX N ij.1 ij.2) 0)) (div, p)
  let div1 := setBoundary N 0 dp.1
  let p1 := setBoundary N 0 dp.2
  let p2 := solveLinear N p1 div1 0 1 4
  let uv := (interior N).foldl (fun (uv : Grid × Grid) ij =>
      (setF uv.1 (IX N ij.1 ij.2)
        (getF uv.1 (IX N ij.1 ij.2) -
          (1 / 2) * (getF p2 (IX N (ij.1 + 1) ij.2) - getF p2 (IX N (ij.1 - 1) ij.2)) *
            (1 / (N : ℚ))),
       setF uv.2 (IX N ij.1 ij.2)
        (getF uv.2 (IX N ij.1 ij.2) -
          (1 / 2) * (getF p2 (IX N ij.1 (ij.2 + 1)) - getF p2 (IX N ij.1 (ij.2 - 1))) *
            (1 / (N : ℚ))))) (u, v)
  (setBoundary N 1 uv.1, setBoundary N 2 uv.2, p2, div1)

/-- Per-cell decay of `fadeStep`: `x[i] -= densityDecay; if (x[i] < 0) x[i] = 0;
if (x[i] > 255) x[i] = 255;`. -/
def fadeVal (decay t : ℚ) : ℚ :=
  let t1 := t - decay
  let t2 := if t1 < 0 then 0 else t1
  if t2 > 255 then 255 else t2

/-- Sequential `fadeStep()`: the decay applied to every cell of the density
buffer, ghost ring included (`for (i = 0; i < state.x.length; i++)`). -/
def fadeStep (decay : ℚ) (x : Grid) : Grid := x.map (fadeVal decay)

/-- The mutable simulation state of the sequential variant (the solver-relevant
fields of the source's `state` object). -/
structure SimState where
  u : Grid
  u0 : Grid
  v : Grid
  v0 : Grid
  x : Grid
  x0 : Grid
  diffuse : ℚ
  viscocity : ℚ
  densityDecay : ℚ

/-- Sequential `velocityStep(dt)`, line by line:
`diffuse(dt, u0, u, viscocity, 1); diffuse(dt, v0, v, viscocity, 2);
project(u0, v0, u, v); advect(dt, u, u0, u0, v0, 1);
advect(dt, v, v0, u0, v0, 2); project(u, v, u0, v0)`. -/
def velocityStep (N : ℕ) (dt : ℚ) (s : SimState) : SimState :=
  let u0a := diffuse N dt s.u0 s.u s.viscocity 1
  let v0a := diffuse N dt s.v0 s.v s.viscocity 2
  let pr1 := project N u0a v0a s.u s.v
  let ua := advect N dt pr1.2.2.1 pr1.1 pr1.1 pr1.2.1 1
  let va := advect N dt pr1.2.2.2 pr1.2.1 pr1.1 pr1.2.1 2
  let pr2 := project N ua va pr1.1 pr1.2.1
  { s with u := pr2.1, v := pr2.2.1, u0 := pr2.2.2.1, v0 := pr2.2.2.2 }

/-- Sequential `densityStep(dt)`:
`diffuse(dt, x0, x, diffuse, 0); advect(dt, x, x0, u, v, 0)`. -/
def densityStep (N : ℕ) (dt : ℚ) (s : SimState) : SimState :=
  let x0a := diffuse N dt s.x0 s.x s.diffuse 0
  let xa := advect N dt s.x x0a s.u s.v 0
  { s with x := xa, x0 := x0a }

/-- Sequential `update(dt)`: `velocityStep(dt); densityStep(dt); fadeStep()`. -/
def update (N : ℕ) (dt : ℚ) (s : SimState) : SimState :=
  let s1 := velocityStep N dt s
  let s2 := densityStep N dt s1
  { s2 with x := fadeStep s2.densityDecay s2.x }

/-- Buffer names of the simulation state. -/
inductive Buf
  | u
  | u0
  | v
  | v0
  | x
  | x0
deriving DecidableEq

/-- Which configured rate a `diffuse` call passes (`state.viscocity` or
`state.diffuse`). -/
inductive RateSel
  | visc
  | dens
deriving DecidableEq

/-- One solver call of the integrator together with the buffer roles it is
given; used to state the tick ordering of claim C4. -/
inductive Op
  | diff (target source : Buf) (rate : RateSel) (b : ℕ)
  | adv (target source velu velv : Buf) (b : ℕ)
  | proj (pu pv pp pd : Buf)
  | fade
deriving DecidableEq

def getBuf (s : SimState) : Buf → Grid
  | .u => s.u
  | .u0 => s.u0
  | .v => s.v
  | .v0 => s.v0
  | .x => s.x
  | .x0 => s.x0

def setBuf (s : SimState) : Buf → Grid → SimState
  | .u, g => { s with u := g }
  | .u0, g => { s with u0 := g }
  | .v, g => { s with v := g }
  | .v0, g => { s with v0 := g }
  | .x, g => { s with x := g }
  | .x0, g => { s with x0 := g }

def rateOf (s : SimState) : RateSel → ℚ
  | .visc => s.viscocity
  | .dens => s.diffuse

/-- Interpretation of one `Op` by the embedded solver stages. -/
def runOp (N : ℕ) (dt : ℚ) (s : SimState) : Op → SimState
  | .diff t src r b => setBuf s t (diffuse N dt (getBuf s t) (getBuf s src) (rateOf s r) b)
  | .adv t src vu vv b =>
      setBuf s t (advect N dt (getBuf s t) (getBuf s src) (getBuf s vu) (getBuf s vv) b)
  | .proj pu pv pp pd =>
      let r := project N (getBuf s pu) (getBuf s pv) (getBuf s pp) (getBuf s pd)
      setBuf (setBuf (setBuf (setBuf s pu r.1) pv r.2.1) pp r.2.2.1) pd r.2.2.2
  | .fade => setBuf s .x (fadeStep s.densityDecay (getBuf s .x))

def runOps (N : ℕ) (dt : ℚ) (s : SimState) (l : List Op) : SimState :=
  l.foldl (runOp N dt) s

/-- The fixed velocity-step order stated by claim C4. -/
def velocityStepOps : List Op :=
  [.diff .u0 .u .visc 1, .diff .v0 .v .visc 2, .proj .u0 .v0 .u .v,
   .adv .u .u0 .u0 .v0 1, .adv .v .v0 .u0 .v0 2, .proj .u .v .u0 .v0]

/-- The fixed density-step order stated by claim C4. -/
def densityStepOps : List Op := [.diff .x0 .x .dens 0, .adv .x .x0 .u .v 0]

/-- The fixed whole-tick order stated by claim C4. -/
def updateOps : List Op := velocityStepOps ++ densityStepOps ++ [.fade]

def isProj : Op → Bool
  | .proj _ _ _ _ => true
  | _ => false

def isAdv : Op → Bool
  | .adv _ _ _ _ _ => true
  | _ => false

/-- One relaxation sweep of the aliased call `solveLinear(x, x, b, a, c)`
(the sequential `diffuse(dt, x, x, diff, b)` passes the same array as both
target and source, so the `x0` reads see the in-place updates). -/
def sweepSelf (N : ℕ) (a cc : ℚ) (y : Grid) : Grid :=
  (interior N).foldl (fun y ij =>
    setF y (IX N ij.1 ij.2)
      ((getF y (IX N ij.1 ij.2) +
        a * (getF y (IX N (ij.1 - 1) ij.2) + getF y (IX N (ij.1 + 1) ij.2) +
             getF y (IX N ij.1 (ij.2 - 1)) + getF y (IX N ij.1 (ij.2 + 1)))) * (1 / cc))) y

/-- The aliased sequential `solveLinear(x, x, boundary, a, c)`. -/
def solveLinearSelf (N : ℕ) (x : Grid) (b : ℕ) (a cc : ℚ) : Grid :=
  (fun y => setBoundary N b (sweepSelf N a cc y))^[20] x

/-- The aliased sequential call `diffuse(dt, x, x, diff, boundary)` (target and
source are the same buffer).  The code performs it without any check. -/
def diffuseSelf (N : ℕ) (dt : ℚ) (x : Grid) (diff : ℚ) (b : ℕ) : Grid :=
  let a := dt * diff * (N : ℚ) * (N : ℚ)
  solveLinearSelf N x b a (1 + 4 * a)

end Fluid

/-! The parallel WebGL variant: each pass is a fragment shader mapping pixel
coordinates to an output scalar, reading only frozen source textures
(`2d-webgl/gl.js`), sequenced by `2d-webgl/index.js`. -/

namespace FluidGL

open Fluid (Grid getF IX)

/-- GLSL `texelFetch` with robust access: reads outside the texture yield 0. -/
def texel (N : ℕ) (x : Grid) (i j : ℤ) : ℚ :=
  if 0 ≤ i ∧ i < (N : ℤ) + 2 ∧ 0 ≤ j ∧ j < (N : ℤ) + 2 then getF x (IX N i.toNat j.toNat)
  else 0

/-- Run a fragment shader over every pixel of the `(N+2) × (N+2)` framebuffer,
producing the rendered texture. -/
def renderGrid (N : ℕ) (f : ℕ → ℕ → ℚ) : Grid :=
  (List.range ((N + 2) * (N + 2))).map (fun q => f (q % (N + 2)) (q / (N + 2)))

/-- Fragment of `setupSetBoundary` at pixel `(px, py)`: the shader's chain of
conditional overwrites, every read from the frozen source texture. -/
def setBoundaryVal (N b : ℕ) (x : Grid) (px py : ℕ) : ℚ :=
  let c0 := texel N x px py
  let c1 := if px = 0 ∧ 1 ≤ py then (if b = 1 then -1 else 1) * texel N x 1 py else c0
  let c2 := if px = N + 1 ∧ 1 ≤ py then (if b = 1 then -1 else 1) * texel N x N py else c1
  let c3 := if 1 ≤ px ∧ py = 0 then (if b = 2 then -1 else 1) * texel N x px 1 else c2
  let c4 := if 1 ≤ px ∧ py = N + 1 then (if b = 2 then -1 else 1) * texel N x px N else c3
  let c5 := if px = 0 ∧ py = 0 then (1 / 2) * (texel N x 1 0 + texel N x 0 1) else c4
  let c6 :=
    if px = 0 ∧ py = N + 1 then (1 / 2) * (texel N x 1 (N + 1) + texel N x 0 N) else c5
  let c7 :=
    if px = N + 1 ∧ py = 0 then (1 / 2) * (texel N x N 0 + texel N x (N + 1) 1) else c6
  if px = N + 1 ∧ py = N + 1 then (1 / 2) * (texel N x N (N + 1) + texel N x (N + 1) N)
  else c7

/-- One `gl.setBoundary` pass (render the shader, then swap buffers). -/
def setBoundaryP (N b : ℕ) (x : Grid) : Grid := renderGrid N (setBoundaryVal N b x)

/-- Fragment of `setupSolveLinear` at pixel `(px, py)`:
`colour.r = (u_a / u_c) * (x0 + l + r + t + b)`. -/
def solveLinearVal (N : ℕ) (a cc : ℚ) (x x0 : Grid) (px py : ℕ) : ℚ :=
  let l := texel N x ((px : ℤ) - 1) py
  let r := texel N x ((px : ℤ) + 1) py
  let t := texel N x px ((py : ℤ) - 1)
  let b := texel N x px ((py : ℤ) + 1)
  let x0v := texel N x0 px py
  (a / cc) * (x0v + l + r + t + b)

/-- One `gpu.solveLinear` pass. -/
def solveLinearP (N : ℕ) (a cc : ℚ) (x x0 : Grid) : Grid :=
  renderGrid N (solveLinearVal N a cc x x0)

/-- Definition of `solveLinearJacobi(xk, x0k, boundary, a, c)` from `2d-webgl/index.js`:
twenty double-buffered solver passes, each followed by a boundary pass. -/
def solveLinearJacobi (N : ℕ) (x x0 : Grid) (b : ℕ) (a cc : ℚ) : Grid :=
  (fun y => setBoundaryP N b (solveLinearP N a cc y x0))^[20] x

/-- GLSL `clamp(t, lo, hi) = min(max(t, lo), hi)`. -/
def glClamp (t lo hi : ℚ) : ℚ := min (max t lo) hi

/-- Fragment of `setupAdvect` at pixel `(px, py)`: backtrace clamped to
`[0.5, size]` with `size = textureSize - 2 = N`, then bilinear interpolation
(`int(x)` truncates toward zero; the clamped value is at least `1/2 > 0`, so
this is the floor). -/
def advectVal (N : ℕ) (dt0 : ℚ) (source u v : Grid) (px py : ℕ) : ℚ :=
  let x := glClamp ((px : ℚ) - dt0 * texel N u px py) (1 / 2) (N : ℚ)
  let y := glClamp ((py : ℚ) - dt0 * texel N v px py) (1 / 2) (N : ℚ)
  let i0 := (⌊x⌋).toNat
  let i1 := i0 + 1
  let j0 := (⌊y⌋).toNat
  let j1 := j0 + 1
  let s1 := x - (i0 : ℚ)
  let s0 := 1 - s1
  let t1 := y - (j0 : ℚ)
  let t0 := 1 - t1
  s0 * (t0 * texel N source i0 j0 + t1 * texel N source i0 j1) +
    s1 * (t0 * texel N source i1 j0 + t1 * texel N source i1 j1)

/-- Parallel `advect(dt, target, source, u, v, boundary)` from
`2d-webgl/index.js`: `dt0 = dt * N`, one advect pass rendering every pixel,
then one boundary pass. -/
def advectP (N : ℕ) (dt : ℚ) (source u v : Grid) (b : ℕ) : Grid :=
  let dt0 := dt * (N : ℚ)
  setBoundaryP N b (renderGrid N (advectVal N dt0 source u v))

/-- Parallel `diffuse(target, source, boundary)` from `2d-webgl/index.js`:
`gpu.setBoundary(source, boundary); gpu.copyPixels(source, target)` — a
boundary pass on the source followed by a plain copy into the target; no
relaxation is performed.  Returns the final `(source, target)` textures. -/
def diffuseP (N b : ℕ) (source : Grid) : Grid × Grid :=
  let s1 := setBoundaryP N b source
  (s1, s1)

/-- Error message thrown by `copyPixels` on a same-buffer copy. -/
def copySelfError : String := "Can\x27t copy to self."

/-- Definition of `copyPixels(source, target)` from `2d-webgl/gl.js`: the only same-buffer
guard in the repository (`if (source === target) throw ...`). -/
def copyPixels (source target : String) : Except String Unit :=
  if source = target then Except.error copySelfError else Except.ok ()

/-- Fragment of `setupFade` at a pixel: `x -= u_density_decay;
x = clamp(x, 0., 255.);`. -/
def fadeVal (decay t : ℚ) : ℚ := glClamp (t - decay) 0 255

end FluidGL

/-! Transcriptions of the claims' own formulas, to be compared with the
definitions taken from the source. -/

namespace Claim

open Fluid (Grid getF setF IX interior setBoundary)

/-- Claim C2's relaxation sweep: `x[i,j] = (x0[i,j] + a*(x[i-1,j] + x[i+1,j] +
x[i,j-1] + x[i,j+1])) / c` for every interior cell, in place. -/
def sweepGS (N : ℕ) (a c : ℚ) (x0 y : Grid) : Grid :=
  (interior N).foldl (fun y ij =>
    setF y (IX N ij.1 ij.2)
      ((getF x0 (IX N ij.1 ij.2) +
        a * (getF y (IX N (ij.1 - 1) ij.2) + getF y (IX N (ij.1 + 1) ij.2) +
             getF y (IX N ij.1 (ij.2 - 1)) + getF y (IX N ij.1 (ij.2 + 1)))) / c)) y

/-- Claim C2's description of the sequential diffuse: `a = dt*kappa*N^2`,
`c = 1 + 4a`, exactly twenty sweeps, boundary conditions enforced on `x`
before the next sweep. -/
def diffuseGS (N : ℕ) (dt kappa : ℚ) (y x0 : Grid) (b : ℕ) : Grid :=
  let a := dt * kappa * (N : ℚ) ^ 2
  let c := 1 + 4 * a
  (fun z => setBoundary N b (sweepGS N a c x0 z))^[20] y

/-- Claim C2's relaxation sweep in the double-buffered reading: every interior
cell is computed from the sweep-start snapshot `x`. -/
def sweepJacobi (N : ℕ) (a c : ℚ) (x0 x : Grid) : Grid :=
  (interior N).foldl (fun y ij =>
    setF y (IX N ij.1 ij.2)
      ((getF x0 (IX N ij.1 ij.2) +
        a * (getF x (IX N (ij.1 - 1) ij.2) + getF x (IX N (ij.1 + 1) ij.2) +
             getF x (IX N ij.1 (ij.2 - 1)) + getF x (IX N ij.1 (ij.2 + 1)))) / c)) x

/-- Claim C2's description of the parallel (double-buffered) diffuse: the same
twenty sweeps, each from the sweep-start snapshot, with the variant's own
boundary pass between sweeps. -/
def diffuseJacobi (N : ℕ) (dt kappa : ℚ) (y x0 : Grid) (b : ℕ) : Grid :=
  let a := dt * kappa * (N : ℚ) ^ 2
  let c := 1 + 4 * a
  (fun z => FluidGL.setBoundaryP N b (sweepJacobi N a c x0 z))^[20] y

/-- Clamping to a closed interval, as the claims phrase it. -/
def clampTo (lo hi t : ℚ) : ℚ := min (max t lo) hi

/-- Claim C3's advected value at interior cell `(i, j)`, with the clamp upper
bound `hi` as a parameter: the claim states `hi = N + 0.5`; the parallel
shader actually uses `hi = N`. -/
def advectFormula (N : ℕ) (hi dt : ℚ) (source u v : Grid) (i j : ℕ) : ℚ :=
  let x := clampTo (1 / 2) hi ((i : ℚ) - dt * (N : ℚ) * getF u (IX N i j))
  let y := clampTo (1 / 2) hi ((j : ℚ) - dt * (N : ℚ) * getF v (IX N i j))
  let i0 := (⌊x⌋).toNat
  let i1 := i0 + 1
  let j0 := (⌊y⌋).toNat
  let j1 := j0 + 1
  let s1 := x - (i0 : ℚ)
  let s0 := 1 - s1
  let t1 := y - (j0 : ℚ)
  let t0 := 1 - t1
  s0 * (t0 * getF source (IX N i0 j0) + t1 * getF source (IX N i0 j1)) +
    s1 * (t0 * getF source (IX N i1 j0) + t1 * getF source (IX N i1 j1))

/-- Claim C7's description of the decay: subtract, then clamp to `[0, 255]`. -/
def fadeFormula (decay t : ℚ) : ℚ := clampTo 0 255 (t - decay)

end Claim

/-! Concrete data used by the closed evaluation theorems. -/

namespace Fluid

/-- A fixed randomized velocity component (entries in `[-1, 1]`, resolution
`N = 4`, all 36 cells of the padded grid populated). -/
def testU : Grid :=
  [-3/4, -1, 0, -1/4, -1/4, -1/2, -3/4, 1, -3/4, 1/2, -1, -1, -3/4, -1/4, -1/4, 1, -1, 1,
   -1/4, 1, 1/2, -1/4, 3/4, 0, -1, -1/2, 1/2, 1/4, 0, -1/2, -1/4, 1/4, -3/4, -3/4, 1/2, -3/4]

/-- The matching fixed randomized vertical component. -/
def testV : Grid :=
  [1/4, 1/4, 0, -1, 3/4, 1, -3/4, 1/2, -3/4, 1, 0, 1/4, -1/4, -3/4, -1, -1/4, 0, -3/4, -1/4,
   -3/4, 1/2, 0, 3/4, 1/4, -1/2, 1/4, 1/4, -1/4, 0, -3/4, -1/2, 1, -1/4, -1/2, 3/4, 1/2]

/-- The call `project(testU, testV, p, div)` at `N = 4` with zeroed scratch buffers. -/
def testProj : Grid × Grid × Grid × Grid :=
  project 4 testU testV (List.replicate 36 0) (List.replicate 36 0)

/-- A density source field for the parallel-diffuse counterexample: `N = 2`,
a unit impulse at interior cell `(1, 1)`. -/
def testImpulse : Grid :=
  [0, 0, 0, 0, 0, 1, 0, 0, 0, 0, 0, 0, 0, 0, 0, 0]

/-- Source field for the advect-clamp counterexample: `N = 2`, the value `8`
stored in the right ghost column at `(3, 2)`. -/
def testAdvSrc : Grid :=
  [0, 0, 0, 0, 0, 0, 0, 0, 0, 0, 0, 8, 0, 0, 0, 0]

/-- Horizontal velocity for the advect-clamp counterexample: `-100` at
interior cell `(2, 2)`, driving the backtrace far beyond the right edge. -/
def testAdvU : Grid :=
  [0, 0, 0, 0, 0, 0, 0, 0, 0, 0, -100, 0, 0, 0, 0, 0]

/-- An all-zero `N = 2` grid. -/
def zeros16 : Grid := List.replicate 16 0

/-- Density field for the aliased-diffuse evaluation: `N = 1`, the value `5`
at the single interior cell. -/
def testSelf : Grid := [0, 0, 0, 0, 5, 0, 0, 0, 0]

/-- Texture for the parallel-boundary corner counterexample: `N = 2`, with `7`
in the bottom ghost cell `(1, 0)` and `9` in the left ghost cell `(0, 1)`. -/
def testCorner : Grid := [0, 7, 0, 0, 9, 0, 0, 0, 0, 0, 0, 0, 0, 0, 0, 0]

/-- The exact corrected horizontal velocity `testProj.1` (computed once and
recorded here so later bounds can be checked cheaply). -/
def testProjU : Grid := [0, 4637742176800949787569125/4835703278458516698824704, -8039431108729043201657077/9671406556917033397649408, 16428660860911967926829957/77371252455336267181195264, -96508585920283358197692035/77371252455336267181195264, 0, -4637742176800949787569125/4835703278458516698824704, 4637742176800949787569125/4835703278458516698824704, -8039431108729043201657077/9671406556917033397649408, 16428660860911967926829957/77371252455336267181195264, -96508585920283358197692035/77371252455336267181195264, 96508585920283358197692035/77371252455336267181195264, 1022814764441514430882675/4835703278458516698824704, -1022814764441514430882675/4835703278458516698824704, -10565588508468382497034685/19342813113834066795298816, 201208561648928509774611999/309485009821345068724781056, -314172186782524431298886353/309485009821345068724781056, 314172186782524431298886353/309485009821345068724781056, -55189505807830133280767987/77371252455336267181195264, 55189505807830133280767987/77371252455336267181195264, -14621088866974848687814303/309485009821345068724781056, -380355269455787733526413537/618970019642690137449562112, 399887964562148098820140021/618970019642690137449562112, -399887964562148098820140021/618970019642690137449562112, 306895307098183585306058281/309485009821345068724781056, -306895307098183585306058281/309485009821345068724781056, -230345958639896098607040041/618970019642690137449562112, -335510678556240078736111993/1237940039285380274899124224, -173944960205147016571921867/1237940039285380274899124224, 173944960205147016571921867/1237940039285380274899124224, 0, -306895307098183585306058281/309485009821345068724781056, -230345958639896098607040041/618970019642690137449562112, -335510678556240078736111993/1237940039285380274899124224, -173944960205147016571921867/1237940039285380274899124224, 0]

/-- The exact corrected vertical velocity `testProj.2.1`. -/
def testProjV : Grid := [0, -964864428798181970427769/1208925819614629174706176, 450274806512434084185181/1208925819614629174706176, -20951104569760615433123773/19342813113834066795298816, -97594820193433779697081099/309485009821345068724781056, 0, 964864428798181970427769/1208925819614629174706176, 964864428798181970427769/1208925819614629174706176, -450274806512434084185181/1208925819614629174706176, 20951104569760615433123773/19342813113834066795298816, 97594820193433779697081099/309485009821345068724781056, 97594820193433779697081099/309485009821345068724781056, 41982843435710731769751/19342813113834066795298816, 41982843435710731769751/19342813113834066795298816, -38189250761076287188557825/77371252455336267181195264, 11198674741317103929942385/309485009821345068724781056, 265898971943013966087217903/618970019642690137449562112, 265898971943013966087217903/618970019642690137449562112, 76191420240244680567349/4835703278458516698824704, 76191420240244680567349/4835703278458516698824704, 227668603453466600913914839/309485009821345068724781056, 117505375421843460410690551/618970019642690137449562112, 1008269527947292560720223591/1237940039285380274899124224, 1008269527947292560720223591/1237940039285380274899124224, 10864910419837662818519245/19342813113834066795298816, 10864910419837662818519245/19342813113834066795298816, 110412751119916089754349275/309485009821345068724781056, -162911657292486259763576651/618970019642690137449562112, -61604164629035458840230987/1237940039285380274899124224, -61604164629035458840230987/1237940039285380274899124224, 0, -10864910419837662818519245/19342813113834066795298816, -110412751119916089754349275/309485009821345068724781056, 162911657292486259763576651/618970019642690137449562112, 61604164629035458840230987/1237940039285380274899124224, 0]

end Fluid

namespace Fluid

/-! Basic facts about grid reads and writes. -/

theorem length_setF (x : Grid) (p : ℕ) (v : ℚ) : (setF x p v).length = x.length :=
  List.length_set x p v

theorem getF_setF_self {x : Grid} {p : ℕ} {v : ℚ} (h : p < x.length) :
    getF (setF x p v) p = v := by
  simp [getF, setF, List.getD_eq_getElem?_getD, List.getElem?_set_self h]

theorem getF_setF_ne {x : Grid} {p q : ℕ} (v : ℚ) (h : p ≠ q) :
    getF (setF x p v) q = getF x q := by
  simp [getF, setF, List.getD_eq_getElem?_getD, List.getElem?_set_ne h]

theorem IX_lt {N i j : ℕ} (hi : i ≤ N + 1) (hj : j ≤ N + 1) :
    IX N i j < (N + 2) * (N + 2) := by
  unfold IX
  have h1 : j * (N + 2) ≤ (N + 1) * (N + 2) := Nat.mul_le_mul_right _ hj
  nlinarith

theorem IX_inj {N i j i' j' : ℕ} (hi : i < N + 2) (hi' : i' < N + 2)
    (h : IX N i j = IX N i' j') : i = i' ∧ j = j' := by
  unfold IX at h
  have e1 : i = i' := by
    have hm := congrArg (· % (N + 2)) h
    simpa [Nat.add_mul_mod_self_right, Nat.mod_eq_of_lt hi, Nat.mod_eq_of_lt hi'] using hm
  subst e1
  have e2 : j * (N + 2) = j' * (N + 2) := by omega
  exact ⟨rfl, Nat.eq_of_mul_eq_mul_right (by omega) e2⟩

theorem IX_ne {N i j i' j' : ℕ} (hi : i < N + 2) (hi' : i' < N + 2)
    (h : i ≠ i' ∨ j ≠ j') : IX N i j ≠ IX N i' j' := by
  intro he
  rcases IX_inj hi hi' he with ⟨h1, h2⟩
  tauto

theorem mem_interior {N : ℕ} {ij : ℕ × ℕ} :
    ij ∈ interior N ↔ 1 ≤ ij.1 ∧ ij.1 ≤ N ∧ 1 ≤ ij.2 ∧ ij.2 ≤ N := by
  obtain ⟨i, j⟩ := ij
  simp only [interior, List.mem_flatMap, List.mem_map, List.mem_range'_1, Prod.mk.injEq]
  constructor
  · rintro ⟨a, ha, b, hb, rfl, rfl⟩
    omega
  · rintro ⟨h1, h2, h3, h4⟩
    exact ⟨i, by omega, j, by omega, rfl, rfl⟩

theorem interior_nodup (N : ℕ) : (interior N).Nodup := by
  unfold interior
  rw [List.nodup_flatMap]
  constructor
  · intro i _
    exact (List.nodup_range' 1 N).map fun a b hab => congrArg Prod.snd hab
  · refine List.Pairwise.imp ?_ (List.nodup_range' 1 N)
    intro a b hab p hpa hpb
    simp only [List.mem_map] at hpa hpb
    obtain ⟨ja, _, rfl⟩ := hpa
    obtain ⟨jb, _, hpb⟩ := hpb
    exact hab (congrArg Prod.fst hpb).symm

/-! Generic characterizations of the interior-cell write loops. -/

theorem length_foldl_setF {α : Type} (l : List α) (pos : α → ℕ) (F : α → Grid → ℚ)
    (x : Grid) :
    (l.foldl (fun y c => setF y (pos c) (F c y)) x).length = x.length := by
  induction l generalizing x with
  | nil => rfl
  | cons d l ih => rw [List.foldl_cons, ih, length_setF]

theorem getF_foldl_setF_of_ne {α : Type} {l : List α} {pos : α → ℕ} {F : α → Grid → ℚ}
    {x : Grid} {q : ℕ} (h : ∀ c ∈ l, pos c ≠ q) :
    getF (l.foldl (fun y c => setF y (pos c) (F c y)) x) q = getF x q := by
  induction l generalizing x with
  | nil => rfl
  | cons d l ih =>
    rw [List.foldl_cons, ih (fun c hc => h c (List.mem_cons_of_mem _ hc)),
      getF_setF_ne _ (h d (List.mem_cons_self _ _))]

theorem getF_foldl_setF_value {α : Type} {l : List α} {pos : α → ℕ} {F : α → Grid → ℚ}
    {x : Grid} {c : α} (hmem : c ∈ l) (hnd : l.Nodup)
    (hinj : ∀ d ∈ l, ∀ e ∈ l, pos d = pos e → d = e)
    (hlen : pos c < x.length)
    (hF : ∀ d ∈ l, ∀ y : Grid, y.length = x.length →
      getF y (pos d) = getF x (pos d) → F d y = F d x) :
    getF (l.foldl (fun y c => setF y (pos c) (F c y)) x) (pos c) = F c x := by
  induction l generalizing x with
  | nil => cases hmem
  | cons d l ih =>
    rw [List.foldl_cons]
    rcases List.mem_cons.mp hmem with rfl | hc
    · have hrest : ∀ e ∈ l, pos e ≠ pos c := by
        intro e he hpe
        have : e = c := hinj e (List.mem_cons_of_mem _ he) c (List.mem_cons_self _ _) hpe
        subst this
        exact (List.nodup_cons.mp hnd).1 he
      rw [getF_foldl_setF_of_ne hrest, getF_setF_self hlen]
    · have hdc : d ≠ c := by
        rintro rfl
        exact (List.nodup_cons.mp hnd).1 hc
      have hpdc : pos d ≠ pos c := fun h =>
        hdc (hinj d (List.mem_cons_self _ _) c (List.mem_cons_of_mem _ hc) h)
      have hy1len : (setF x (pos d) (F d x)).length = x.length := length_setF _ _ _
      have hy1c : getF (setF x (pos d) (F d x)) (pos c) = getF x (pos c) :=
        getF_setF_ne _ hpdc
      have hstep : ∀ e ∈ l, getF (setF x (pos d) (F d x)) (pos e) = getF x (pos e) := by
        intro e he
        refine getF_setF_ne _ fun hpe => ?_
        have : d = e := hinj d (List.mem_cons_self _ _) e (List.mem_cons_of_mem _ he) hpe
        subst this
        exact (List.nodup_cons.mp hnd).1 he
      have ihres := ih hc (List.nodup_cons.mp hnd).2
        (fun a ha b hb hab =>
          hinj a (List.mem_cons_of_mem _ ha) b (List.mem_cons_of_mem _ hb) hab)
        (hy1len ▸ hlen)
        (fun e he y hylen hye => by
          have h1 : F e y = F e x :=
            hF e (List.mem_cons_of_mem _ he) y (by rw [hylen, hy1len])
              (by rw [hye, hstep e he])
          have h2 : F e (setF x (pos d) (F d x)) = F e x :=
            hF e (List.mem_cons_of_mem _ he) _ hy1len (hstep e he)
          rw [h1, h2])
      rw [ihres]
      exact hF c hmem _ hy1len hy1c

theorem foldl_pair {α : Type} (l : List α) (f g : α → Grid → Grid) (a b : Grid) :
    l.foldl (fun p c => (f c p.1, g c p.2)) (a, b) =
      (l.foldl (fun y c => f c y) a, l.foldl (fun y c => g c y) b) := by
  induction l generalizing a b with
  | nil => rfl
  | cons d l ih => rw [List.foldl_cons, List.foldl_cons, List.foldl_cons]; exact ih _ _

/-! Characterization of `setBoundary`: it writes exactly the ghost ring, edge
ghosts from the adjacent interior row or column, corners from the
freshly-written edge ghosts. -/

theorem length_edgeStep (N b i : ℕ) (y : Grid) : (edgeStep N b i y).length = y.length := by
  simp only [edgeStep]
  rw [length_setF, length_setF, length_setF, length_setF]

theorem getF_edgeStep_of_ne {N b i q : ℕ} {y : Grid}
    (h0 : IX N 0 i ≠ q) (h1 : IX N (N + 1) i ≠ q) (h2 : IX N i 0 ≠ q)
    (h3 : IX N i (N + 1) ≠ q) :
    getF (edgeStep N b i y) q = getF y q := by
  simp only [edgeStep]
  rw [getF_setF_ne _ h3, getF_setF_ne _ h2, getF_setF_ne _ h1, getF_setF_ne _ h0]

theorem getF_edgeStep_left {N b i : ℕ} {y : Grid} (hi1 : 1 ≤ i) (hi2 : i ≤ N)
    (hlen : y.length = (N + 2) * (N + 2)) :
    getF (edgeStep N b i y) (IX N 0 i) =
      if b = 1 then -(getF y (IX N 1 i)) else getF y (IX N 1 i) := by
  simp only [edgeStep]
  rw [getF_setF_ne _ (IX_ne (by omega) (by omega) (by omega)),
      getF_setF_ne _ (IX_ne (by omega) (by omega) (by omega)),
      getF_setF_ne _ (IX_ne (by omega) (by omega) (by omega)),
      getF_setF_self (by rw [hlen]; exact IX_lt (by omega) (by omega))]

theorem getF_edgeStep_right {N b i : ℕ} {y : Grid} (hi1 : 1 ≤ i) (hi2 : i ≤ N)
    (hlen : y.length = (N + 2) * (N + 2)) :
    getF (edgeStep N b i y) (IX N (N + 1) i) =
      if b = 1 then -(getF y (IX N N i)) else getF y (IX N N i) := by
  simp only [edgeStep]
  rw [getF_setF_ne _ (IX_ne (by omega) (by omega) (by omega)),
      getF_setF_ne _ (IX_ne (by omega) (by omega) (by omega)),
      getF_setF_self (by rw [length_setF, hlen]; exact IX_lt (by omega) (by omega)),
      getF_setF_ne _ (IX_ne (by omega) (by omega) (by omega))]

theorem getF_edgeStep_bottom {N b i : ℕ} {y : Grid} (hi1 : 1 ≤ i) (hi2 : i ≤ N)
    (hlen : y.length = (N + 2) * (N + 2)) :
    getF (edgeStep N b i y) (IX N i 0) =
      if b = 2 then -(getF y (IX N i 1)) else getF y (IX N i 1) := by
  simp only [edgeStep]
  rw [getF_setF_ne _ (IX_ne (by omega) (by omega) (by omega)),
      getF_setF_self (by rw [length_setF, length_setF, hlen]; exact IX_lt (by omega) (by omega)),
      getF_setF_ne _ (IX_ne (by omega) (by omega) (by omega)),
      getF_setF_ne _ (IX_ne (by omega) (by omega) (by omega))]

theorem getF_edgeStep_top {N b i : ℕ} {y : Grid} (hi1 : 1 ≤ i) (hi2 : i ≤ N)
    (hlen : y.length = (N + 2) * (N + 2)) :
    getF (edgeStep N b i y) (IX N i (N + 1)) =
      if b = 2 then -(getF y (IX N i N)) else getF y (IX N i N) := by
  simp only [edgeStep]
  rw [getF_setF_self
        (by rw [length_setF, length_setF, length_setF, hlen]; exact IX_lt (by omega) (by omega)),
      getF_setF_ne _ (IX_ne (by omega) (by omega) (by omega)),
      getF_setF_ne _ (IX_ne (by omega) (by omega) (by omega)),
      getF_setF_ne _ (IX_ne (by omega) (by omega) (by omega))]

theorem length_foldl_edgeStep {N b : ℕ} (l : List ℕ) (x : Grid) :
    (l.foldl (fun y i => edgeStep N b i y) x).length = x.length := by
  induction l generalizing x with
  | nil => rfl
  | cons d l ih => rw [List.foldl_cons, ih, length_edgeStep]

theorem getF_foldl_edgeStep_of_ne {N b q : ℕ} {l : List ℕ} {x : Grid}
    (h : ∀ i ∈ l, IX N 0 i ≠ q ∧ IX N (N + 1) i ≠ q ∧ IX N i 0 ≠ q ∧ IX N i (N + 1) ≠ q) :
    getF (l.foldl (fun y i => edgeStep N b i y) x) q = getF x q := by
  induction l generalizing x with
  | nil => rfl
  | cons d l ih =>
    rw [List.foldl_cons, ih (fun i hi => h i (List.mem_cons_of_mem _ hi))]
    obtain ⟨h0, h1, h2, h3⟩ := h d (List.mem_cons_self _ _)
    exact getF_edgeStep_of_ne h0 h1 h2 h3

theorem getF_foldl_edgeStep_left {N b k : ℕ} {l : List ℕ} {x : Grid}
    (hl : ∀ i ∈ l, 1 ≤ i ∧ i ≤ N) (hnd : l.Nodup) (hk : k ∈ l)
    (hlen : x.length = (N + 2) * (N + 2)) :
    getF (l.foldl (fun y i => edgeStep N b i y) x) (IX N 0 k) =
      if b = 1 then -(getF x (IX N 1 k)) else getF x (IX N 1 k) := by
  induction l generalizing x with
  | nil => cases hk
  | cons d l ih =>
    have hd := hl d (List.mem_cons_self _ _)
    rw [List.foldl_cons]
    rcases List.mem_cons.mp hk with rfl | hkl
    · rw [getF_foldl_edgeStep_of_ne (fun i hi => ?_)]
      · exact getF_edgeStep_left hd.1 hd.2 hlen
      · have hii := hl i (List.mem_cons_of_mem _ hi)
        have hik : i ≠ k := fun he => (List.nodup_cons.mp hnd).1 (he ▸ hi)
        exact ⟨IX_ne (by omega) (by omega) (by omega), IX_ne (by omega) (by omega) (by omega),
          IX_ne (by omega) (by omega) (by omega), IX_ne (by omega) (by omega) (by omega)⟩
    · have hkb := hl k (List.mem_cons_of_mem _ hkl)
      rw [ih (fun i hi => hl i (List.mem_cons_of_mem _ hi)) (List.nodup_cons.mp hnd).2 hkl
          (by rw [length_edgeStep, hlen]),
        getF_edgeStep_of_ne (IX_ne (by omega) (by omega) (by omega))
          (IX_ne (by omega) (by omega) (by omega)) (IX_ne (by omega) (by omega) (by omega))
          (IX_ne (by omega) (by omega) (by omega))]

theorem getF_foldl_edgeStep_right {N b k : ℕ} {l : List ℕ} {x : Grid}
    (hl : ∀ i ∈ l, 1 ≤ i ∧ i ≤ N) (hnd : l.Nodup) (hk : k ∈ l)
    (hlen : x.length = (N + 2) * (N + 2)) :
    getF (l.foldl (fun y i => edgeStep N b i y) x) (IX N (N + 1) k) =
      if b = 1 then -(getF x (IX N N k)) else getF x (IX N N k) := by
  induction l generalizing x with
  | nil => cases hk
  | cons d l ih =>
    have hd := hl d (List.mem_cons_self _ _)
    rw [List.foldl_cons]
    rcases List.mem_cons.mp hk with rfl | hkl
    · rw [getF_foldl_edgeStep_of_ne (fun i hi => ?_)]
      · exact getF_edgeStep_right hd.1 hd.2 hlen
      · have hii := hl i (List.mem_cons_of_mem _ hi)
        have hik : i ≠ k := fun he => (List.nodup_cons.mp hnd).1 (he ▸ hi)
        exact ⟨IX_ne (by omega) (by omega) (by omega), IX_ne (by omega) (by omega) (by omega),
          IX_ne (by omega) (by omega) (by omega), IX_ne (by omega) (by omega) (by omega)⟩
    · have hkb := hl k (List.mem_cons_of_mem _ hkl)
      rw [ih (fun i hi => hl i (List.mem_cons_of_mem _ hi)) (List.nodup_cons.mp hnd).2 hkl
          (by rw [length_edgeStep, hlen]),
        getF_edgeStep_of_ne (IX_ne (by omega) (by omega) (by omega))
          (IX_ne (by omega) (by omega) (by omega)) (IX_ne (by omega) (by omega) (by omega))
          (IX_ne (by omega) (by omega) (by omega))]

theorem getF_foldl_edgeStep_bottom {N b k : ℕ} {l : List ℕ} {x : Grid}
    (hl : ∀ i ∈ l, 1 ≤ i ∧ i ≤ N) (hnd : l.Nodup) (hk : k ∈ l)
    (hlen : x.length = (N + 2) * (N + 2)) :
    getF (l.foldl (fun y i => edgeStep N b i y) x) (IX N k 0) =
      if b = 2 then -(getF x (IX N k 1)) else getF x (IX N k 1) := by
  induction l generalizing x with
  | nil => cases hk
  | cons d l ih =>
    have hd := hl d (List.mem_cons_self _ _)
    rw [List.foldl_cons]
    rcases List.mem_cons.mp hk with rfl | hkl
    · rw [getF_foldl_edgeStep_of_ne (fun i hi => ?_)]
      · exact getF_edgeStep_bottom hd.1 hd.2 hlen
      · have hii := hl i (List.mem_cons_of_mem _ hi)
        have hik : i ≠ k := fun he => (List.nodup_cons.mp hnd).1 (he ▸ hi)
        exact ⟨IX_ne (by omega) (by omega) (by omega), IX_ne (by omega) (by omega) (by omega),
          IX_ne (by omega) (by omega) (by omega), IX_ne (by omega) (by omega) (by omega)⟩
    · have hkb := hl k (List.mem_cons_of_mem _ hkl)
      rw [ih (fun i hi => hl i (List.mem_cons_of_mem _ hi)) (List.nodup_cons.mp hnd).2 hkl
          (by rw [length_edgeStep, hlen]),
        getF_edgeStep_of_ne (IX_ne (by omega) (by omega) (by omega))
          (IX_ne (by omega) (by omega) (by omega)) (IX_ne (by omega) (by omega) (by omega))
          (IX_ne (by omega) (by omega) (by omega))]

theorem getF_foldl_edgeStep_top {N b k : ℕ} {l : List ℕ} {x : Grid}
    (hl : ∀ i ∈ l, 1 ≤ i ∧ i ≤ N) (hnd : l.Nodup) (hk : k ∈ l)
    (hlen : x.length = (N + 2) * (N + 2)) :
    getF (l.foldl (fun y i => edgeStep N b i y) x) (IX N k (N + 1)) =
      if b = 2 then -(getF x (IX N k N)) else getF x (IX N k N) := by
  induction l generalizing x with
  | nil => cases hk
  | cons d l ih =>
    have hd := hl d (List.mem_cons_self _ _)
    rw [List.foldl_cons]
    rcases List.mem_cons.mp hk with rfl | hkl
    · rw [getF_foldl_edgeStep_of_ne (fun i hi => ?_)]
      · exact getF_edgeStep_top hd.1 hd.2 hlen
      · have hii := hl i (List.mem_cons_of_mem _ hi)
        have hik : i ≠ k := fun he => (List.nodup_cons.mp hnd).1 (he ▸ hi)
        exact ⟨IX_ne (by omega) (by omega) (by omega), IX_ne (by omega) (by omega) (by omega),
          IX_ne (by omega) (by omega) (by omega), IX_ne (by omega) (by omega) (by omega)⟩
    · have hkb := hl k (List.mem_cons_of_mem _ hkl)
      rw [ih (fun i hi => hl i (List.mem_cons_of_mem _ hi)) (List.nodup_cons.mp hnd).2 hkl
          (by rw [length_edgeStep, hlen]),
        getF_edgeStep_of_ne (IX_ne (by omega) (by omega) (by omega))
          (IX_ne (by omega) (by omega) (by omega)) (IX_ne (by omega) (by omega) (by omega))
          (IX_ne (by omega) (by omega) (by omega))]

theorem length_edgeLoop (N b : ℕ) (x : Grid) : (edgeLoop N b x).length = x.length :=
  length_foldl_edgeStep _ _

theorem length_setBoundary (N b : ℕ) (x : Grid) : (setBoundary N b x).length = x.length := by
  simp only [setBoundary]
  rw [length_setF, length_setF, length_setF, length_setF, length_edgeLoop]

theorem range'_one_mem {N i : ℕ} (h1 : 1 ≤ i) (h2 : i ≤ N) : i ∈ List.range' 1 N := by
  rw [List.mem_range'_1]
  omega

theorem range'_one_bounds {N : ℕ} : ∀ i ∈ List.range' 1 N, 1 ≤ i ∧ i ≤ N := by
  intro i hi
  rw [List.mem_range'_1] at hi
  omega

theorem getF_setBoundary_eq_edgeLoop {N b : ℕ} (q : ℕ) {x : Grid}
    (h0 : IX N 0 0 ≠ q) (h1 : IX N 0 (N + 1) ≠ q) (h2 : IX N (N + 1) 0 ≠ q)
    (h3 : IX N (N + 1) (N + 1) ≠ q) :
    getF (setBoundary N b x) q = getF (edgeLoop N b x) q := by
  simp only [setBoundary]
  rw [getF_setF_ne _ h3, getF_setF_ne _ h2, getF_setF_ne _ h1, getF_setF_ne _ h0]

theorem getF_setBoundary_interior {N b i j : ℕ} {x : Grid} (hi1 : 1 ≤ i) (hi2 : i ≤ N)
    (hj1 : 1 ≤ j) (hj2 : j ≤ N) :
    getF (setBoundary N b x) (IX N i j) = getF x (IX N i j) := by
  rw [getF_setBoundary_eq_edgeLoop _ (IX_ne (by omega) (by omega) (by omega))
    (IX_ne (by omega) (by omega) (by omega)) (IX_ne (by omega) (by omega) (by omega))
    (IX_ne (by omega) (by omega) (by omega))]
  exact getF_foldl_edgeStep_of_ne fun i' hi' => by
    have := range'_one_bounds i' hi'
    exact ⟨IX_ne (by omega) (by omega) (by omega), IX_ne (by omega) (by omega) (by omega),
      IX_ne (by omega) (by omega) (by omega), IX_ne (by omega) (by omega) (by omega)⟩

theorem getF_setBoundary_left {N b k : ℕ} {x : Grid} (hk1 : 1 ≤ k) (hk2 : k ≤ N)
    (hlen : x.length = (N + 2) * (N + 2)) :
    getF (setBoundary N b x) (IX N 0 k) =
      if b = 1 then -(getF x (IX N 1 k)) else getF x (IX N 1 k) := by
  rw [getF_setBoundary_eq_edgeLoop _ (IX_ne (by omega) (by omega) (by omega))
    (IX_ne (by omega) (by omega) (by omega)) (IX_ne (by omega) (by omega) (by omega))
    (IX_ne (by omega) (by omega) (by omega))]
  exact getF_foldl_edgeStep_left range'_one_bounds (List.nodup_range' 1 N)
    (range'_one_mem hk1 hk2) hlen

theorem getF_setBoundary_right {N b k : ℕ} {x : Grid} (hk1 : 1 ≤ k) (hk2 : k ≤ N)
    (hlen : x.length = (N + 2) * (N + 2)) :
    getF (setBoundary N b x) (IX N (N + 1) k) =
      if b = 1 then -(getF x (IX N N k)) else getF x (IX N N k) := by
  rw [getF_setBoundary_eq_edgeLoop _ (IX_ne (by omega) (by omega) (by omega))
    (IX_ne (by omega) (by omega) (by omega)) (IX_ne (by omega) (by omega) (by omega))
    (IX_ne (by omega) (by omega) (by omega))]
  exact getF_foldl_edgeStep_right range'_one_bounds (List.nodup_range' 1 N)
    (range'_one_mem hk1 hk2) hlen

theorem getF_setBoundary_bottom {N b k : ℕ} {x : Grid} (hk1 : 1 ≤ k) (hk2 : k ≤ N)
    (hlen : x.length = (N + 2) * (N + 2)) :
    getF (setBoundary N b x) (IX N k 0) =
      if b = 2 then -(getF x (IX N k 1)) else getF x (IX N k 1) := by
  rw [getF_setBoundary_eq_edgeLoop _ (IX_ne (by omega) (by omega) (by omega))
    (IX_ne (by omega) (by omega) (by omega)) (IX_ne (by omega) (by omega) (by omega))
    (IX_ne (by omega) (by omega) (by omega))]
  exact getF_foldl_edgeStep_bottom range'_one_bounds (List.nodup_range' 1 N)
    (range'_one_mem hk1 hk2) hlen

theorem getF_setBoundary_top {N b k : ℕ} {x : Grid} (hk1 : 1 ≤ k) (hk2 : k ≤ N)
    (hlen : x.length = (N + 2) * (N + 2)) :
    getF (setBoundary N b x) (IX N k (N + 1)) =
      if b = 2 then -(getF x (IX N k N)) else getF x (IX N k N) := by
  rw [getF_setBoundary_eq_edgeLoop _ (IX_ne (by omega) (by omega) (by omega))
    (IX_ne (by omega) (by omega) (by omega)) (IX_ne (by omega) (by omega) (by omega))
    (IX_ne (by omega) (by omega) (by omega))]
  exact getF_foldl_edgeStep_top range'_one_bounds (List.nodup_range' 1 N)
    (range'_one_mem hk1 hk2) hlen

theorem getF_setBoundary_corner00 {N b : ℕ} {x : Grid} (hN : 1 ≤ N)
    (hlen : x.length = (N + 2) * (N + 2)) :
    getF (setBoundary N b x) (IX N 0 0) =
      (1 / 2) *
        (getF (setBoundary N b x) (IX N 1 0) + getF (setBoundary N b x) (IX N 0 1)) := by
  rw [getF_setBoundary_eq_edgeLoop (IX N 1 0) (IX_ne (by omega) (by omega) (by omega))
      (IX_ne (by omega) (by omega) (by omega)) (IX_ne (by omega) (by omega) (by omega))
      (IX_ne (by omega) (by omega) (by omega)),
    getF_setBoundary_eq_edgeLoop (IX N 0 1) (IX_ne (by omega) (by omega) (by omega))
      (IX_ne (by omega) (by omega) (by omega)) (IX_ne (by omega) (by omega) (by omega))
      (IX_ne (by omega) (by omega) (by omega))]
  simp only [setBoundary]
  rw [getF_setF_ne _ (IX_ne (by omega) (by omega) (by omega)),
      getF_setF_ne _ (IX_ne (by omega) (by omega) (by omega)),
      getF_setF_ne _ (IX_ne (by omega) (by omega) (by omega)),
      getF_setF_self (by rw [length_edgeLoop, hlen]; exact IX_lt (by omega) (by omega))]

theorem getF_setBoundary_corner01 {N b : ℕ} {x : Grid} (hN : 1 ≤ N)
    (hlen : x.length = (N + 2) * (N + 2)) :
    getF (setBoundary N b x) (IX N 0 (N + 1)) =
      (1 / 2) *
        (getF (setBoundary N b x) (IX N 1 (N + 1)) +
          getF (setBoundary N b x) (IX N 0 N)) := by
  rw [getF_setBoundary_eq_edgeLoop (IX N 1 (N + 1)) (IX_ne (by omega) (by omega) (by omega))
      (IX_ne (by omega) (by omega) (by omega)) (IX_ne (by omega) (by omega) (by omega))
      (IX_ne (by omega) (by omega) (by omega)),
    getF_setBoundary_eq_edgeLoop (IX N 0 N) (IX_ne (by omega) (by omega) (by omega))
      (IX_ne (by omega) (by omega) (by omega)) (IX_ne (by omega) (by omega) (by omega))
      (IX_ne (by omega) (by omega) (by omega))]
  simp only [setBoundary]
  rw [getF_setF_ne _ (IX_ne (by omega) (by omega) (by omega)),
      getF_setF_ne _ (IX_ne (by omega) (by omega) (by omega)),
      getF_setF_self
        (by rw [length_setF, length_edgeLoop, hlen]; exact IX_lt (by omega) (by omega)),
      getF_setF_ne _ (IX_ne (by omega) (by omega) (by omega)),
      getF_setF_ne _ (IX_ne (by omega) (by omega) (by omega))]

theorem getF_setBoundary_corner10 {N b : ℕ} {x : Grid} (hN : 1 ≤ N)
    (hlen : x.length = (N + 2) * (N + 2)) :
    getF (setBoundary N b x) (IX N (N + 1) 0) =
      (1 / 2) *
        (getF (setBoundary N b x) (IX N N 0) +
          getF (setBoundary N b x) (IX N (N + 1) 1)) := by
  rw [getF_setBoundary_eq_edgeLoop (IX N N 0) (IX_ne (by omega) (by omega) (by omega))
      (IX_ne (by omega) (by omega) (by omega)) (IX_ne (by omega) (by omega) (by omega))
      (IX_ne (by omega) (by omega) (by omega)),
    getF_setBoundary_eq_edgeLoop (IX N (N + 1) 1) (IX_ne (by omega) (by omega) (by omega))
      (IX_ne (by omega) (by omega) (by omega)) (IX_ne (by omega) (by omega) (by omega))
      (IX_ne (by omega) (by omega) (by omega))]
  simp only [setBoundary]
  rw [getF_setF_ne _ (IX_ne (by omega) (by omega) (by omega)),
      getF_setF_self
        (by rw [length_setF, length_setF, length_edgeLoop, hlen]
            exact IX_lt (by omega) (by omega)),
      getF_setF_ne _ (IX_ne (by omega) (by omega) (by omega)),
      getF_setF_ne _ (IX_ne (by omega) (by omega) (by omega)),
      getF_setF_ne _ (IX_ne (by omega) (by omega) (by omega)),
      getF_setF_ne _ (IX_ne (by omega) (by omega) (by omega))]

theorem sweep_eq_claimGS (N : ℕ) (a cc : ℚ) (x0 y : Grid) :
    sweep N a cc x0 y = Claim.sweepGS N a cc x0 y := by
  unfold sweep Claim.sweepGS
  apply List.foldl_ext
  intro z ij _
  rw [mul_one_div]

theorem diffuse_eq_claimGS (N : ℕ) (dt kappa : ℚ) (x x0 : Grid) (b : ℕ) :
    diffuse N dt x x0 kappa b = Claim.diffuseGS N dt kappa x x0 b := by
  simp only [diffuse, solveLinear, Claim.diffuseGS]
  have ha : dt * kappa * (N : ℚ) * (N : ℚ) = dt * kappa * (N : ℚ) ^ 2 := by ring
  rw [ha]
  congr 1
  funext z
  rw [sweep_eq_claimGS]

theorem getF_sweep_of_ne {N : ℕ} {a cc : ℚ} {x0 y : Grid} {q : ℕ}
    (h : ∀ i j, 1 ≤ i → i ≤ N → 1 ≤ j → j ≤ N → IX N i j ≠ q) :
    getF (sweep N a cc x0 y) q = getF y q := by
  unfold sweep
  exact getF_foldl_setF_of_ne fun c hc => by
    have hb := mem_interior.mp hc
    exact h c.1 c.2 hb.1 hb.2.1 hb.2.2.1 hb.2.2.2

theorem getF_advect_interior {N : ℕ} {dt : ℚ} {target source u v : Grid} {b i j : ℕ}
    (hlen : target.length = (N + 2) * (N + 2))
    (hi1 : 1 ≤ i) (hi2 : i ≤ N) (hj1 : 1 ≤ j) (hj2 : j ≤ N) :
    getF (advect N dt target source u v b) (IX N i j) =
      advectVal N (dt * (N : ℚ)) source u v i j := by
  simp only [advect]
  rw [getF_setBoundary_interior hi1 hi2 hj1 hj2]
  exact @getF_foldl_setF_value (ℕ × ℕ) (interior N) (fun ij => IX N ij.1 ij.2)
    (fun ij _ => advectVal N (dt * (N : ℚ)) source u v ij.1 ij.2) target (i, j)
    (mem_interior.mpr ⟨hi1, hi2, hj1, hj2⟩) (interior_nodup N)
    (fun d hd e he hde => by
      have hbd := mem_interior.mp hd
      have hbe := mem_interior.mp he
      have := IX_inj (by omega) (by omega) hde
      exact Prod.ext this.1 this.2)
    (by rw [hlen]; exact IX_lt (by omega) (by omega))
    (fun d hd y hy hgy => rfl)

theorem getF_renderGrid {N : ℕ} (f : ℕ → ℕ → ℚ) {i j : ℕ} (hi : i ≤ N + 1)
    (hj : j ≤ N + 1) :
    getF (FluidGL.renderGrid N f) (IX N i j) = f i j := by
  unfold FluidGL.renderGrid getF
  rw [List.getD_eq_getElem?_getD, List.getElem?_map, List.getElem?_range (IX_lt hi hj)]
  have e1 : IX N i j % (N + 2) = i := by
    unfold IX
    rw [Nat.add_mul_mod_self_right, Nat.mod_eq_of_lt (by omega)]
  have e2 : IX N i j / (N + 2) = j := by
    unfold IX
    rw [Nat.add_mul_div_right _ _ (by omega : 0 < N + 2), Nat.div_eq_of_lt (by omega)]
    omega
  rw [Option.map_some', e1, e2, Option.getD_some]

theorem texel_eq_getF {N : ℕ} {x : Grid} {i j : ℕ} (hi : i ≤ N + 1) (hj : j ≤ N + 1) :
    FluidGL.texel N x i j = getF x (IX N i j) := by
  unfold FluidGL.texel
  rw [if_pos (by omega)]
  simp

theorem getF_setBoundaryP_interior {N b : ℕ} {x : Grid} {i j : ℕ}
    (hi1 : 1 ≤ i) (hi2 : i ≤ N) (hj1 : 1 ≤ j) (hj2 : j ≤ N) :
    getF (FluidGL.setBoundaryP N b x) (IX N i j) = getF x (IX N i j) := by
  unfold FluidGL.setBoundaryP
  rw [getF_renderGrid _ (by omega) (by omega)]
  simp only [FluidGL.setBoundaryVal]
  have e1 : ¬(i = 0 ∧ 1 ≤ j) := by omega
  have e2 : ¬(i = N + 1 ∧ 1 ≤ j) := by omega
  have e3 : ¬(1 ≤ i ∧ j = 0) := by omega
  have e4 : ¬(1 ≤ i ∧ j = N + 1) := by omega
  have e5 : ¬(i = 0 ∧ j = 0) := by omega
  have e6 : ¬(i = 0 ∧ j = N + 1) := by omega
  have e7 : ¬(i = N + 1 ∧ j = 0) := by omega
  have e8 : ¬(i = N + 1 ∧ j = N + 1) := by omega
  rw [if_neg e8, if_neg e7, if_neg e6, if_neg e5, if_neg e4, if_neg e3, if_neg e2, if_neg e1]
  exact texel_eq_getF (by omega) (by omega)

theorem getF_setBoundaryP {N b : ℕ} {x : Grid} {i j : ℕ} (hi : i ≤ N + 1) (hj : j ≤ N + 1) :
    getF (FluidGL.setBoundaryP N b x) (IX N i j) = FluidGL.setBoundaryVal N b x i j := by
  unfold FluidGL.setBoundaryP
  exact getF_renderGrid _ hi hj

theorem texel_in_range {N : ℕ} {x : Grid} {i j : ℤ}
    (h : 0 ≤ i ∧ i < (N : ℤ) + 2 ∧ 0 ≤ j ∧ j < (N : ℤ) + 2) :
    FluidGL.texel N x i j = getF x (IX N i.toNat j.toNat) := by
  unfold FluidGL.texel
  rw [if_pos h]

theorem setBoundaryVal_left {N b i k : ℕ} (x : Grid) (hi : i = 0)
    (hk1 : 1 ≤ k) (hk2 : k ≤ N) :
    FluidGL.setBoundaryVal N b x i k =
      (if b = 1 then -1 else 1) * getF x (IX N 1 k) := by
  simp only [FluidGL.setBoundaryVal]
  have e1 : i = 0 ∧ 1 ≤ k := by omega
  have e2 : ¬(i = N + 1 ∧ 1 ≤ k) := by omega
  have e3 : ¬(1 ≤ i ∧ k = 0) := by omega
  have e4 : ¬(1 ≤ i ∧ k = N + 1) := by omega
  have e5 : ¬(i = 0 ∧ k = 0) := by omega
  have e6 : ¬(i = 0 ∧ k = N + 1) := by omega
  have e7 : ¬(i = N + 1 ∧ k = 0) := by omega
  have e8 : ¬(i = N + 1 ∧ k = N + 1) := by omega
  rw [if_neg e8, if_neg e7, if_neg e6, if_neg e5, if_neg e4, if_neg e3, if_neg e2, if_pos e1]
  rw [texel_in_range (by omega)]
  with_unfolding_all rfl

theorem setBoundaryVal_right {N b i k : ℕ} (x : Grid) (hi : i = N + 1)
    (hk1 : 1 ≤ k) (hk2 : k ≤ N) :
    FluidGL.setBoundaryVal N b x i k =
      (if b = 1 then -1 else 1) * getF x (IX N N k) := by
  simp only [FluidGL.setBoundaryVal]
  have e2 : i = N + 1 ∧ 1 ≤ k := by omega
  have e3 : ¬(1 ≤ i ∧ k = 0) := by omega
  have e4 : ¬(1 ≤ i ∧ k = N + 1) := by omega
  have e5 : ¬(i = 0 ∧ k = 0) := by omega
  have e6 : ¬(i = 0 ∧ k = N + 1) := by omega
  have e7 : ¬(i = N + 1 ∧ k = 0) := by omega
  have e8 : ¬(i = N + 1 ∧ k = N + 1) := by omega
  rw [if_neg e8, if_neg e7, if_neg e6, if_neg e5, if_neg e4, if_neg e3, if_pos e2]
  rw [texel_in_range (by omega)]
  with_unfolding_all rfl

theorem setBoundaryVal_bottom {N b k j : ℕ} (x : Grid) (hj : j = 0)
    (hk1 : 1 ≤ k) (hk2 : k ≤ N) :
    FluidGL.setBoundaryVal N b x k j =
      (if b = 2 then -1 else 1) * getF x (IX N k 1) := by
  simp only [FluidGL.setBoundaryVal]
  have e3 : 1 ≤ k ∧ j = 0 := by omega
  have e4 : ¬(1 ≤ k ∧ j = N + 1) := by omega
  have e5 : ¬(k = 0 ∧ j = 0) := by omega
  have e6 : ¬(k = 0 ∧ j = N + 1) := by omega
  have e7 : ¬(k = N + 1 ∧ j = 0) := by omega
  have e8 : ¬(k = N + 1 ∧ j = N + 1) := by omega
  rw [if_neg e8, if_neg e7, if_neg e6, if_neg e5, if_neg e4, if_pos e3]
  rw [texel_in_range (by omega)]
  with_unfolding_all rfl

theorem setBoundaryVal_top {N b k j : ℕ} (x : Grid) (hj : j = N + 1)
    (hk1 : 1 ≤ k) (hk2 : k ≤ N) :
    FluidGL.setBoundaryVal N b x k j =
      (if b = 2 then -1 else 1) * getF x (IX N k N) := by
  simp only [FluidGL.setBoundaryVal]
  have e4 : 1 ≤ k ∧ j = N + 1 := by omega
  have e5 : ¬(k = 0 ∧ j = 0) := by omega
  have e6 : ¬(k = 0 ∧ j = N + 1) := by omega
  have e7 : ¬(k = N + 1 ∧ j = 0) := by omega
  have e8 : ¬(k = N + 1 ∧ j = N + 1) := by omega
  rw [if_neg e8, if_neg e7, if_neg e6, if_neg e5, if_pos e4]
  rw [texel_in_range (by omega)]
  with_unfolding_all rfl

theorem setBoundaryVal_corner00 {N b i j : ℕ} (x : Grid) (hi : i = 0) (hj : j = 0) :
    FluidGL.setBoundaryVal N b x i j =
      (1 / 2) * (getF x (IX N 1 0) + getF x (IX N 0 1)) := by
  simp only [FluidGL.setBoundaryVal]
  have e5 : i = 0 ∧ j = 0 := by omega
  have e6 : ¬(i = 0 ∧ j = N + 1) := by omega
  have e7 : ¬(i = N + 1 ∧ j = 0) := by omega
  have e8 : ¬(i = N + 1 ∧ j = N + 1) := by omega
  rw [if_neg e8, if_neg e7, if_neg e6, if_pos e5]
  rw [texel_in_range (by omega), texel_in_range (by omega)]
  with_unfolding_all rfl

theorem setBoundaryVal_corner01 {N b i j : ℕ} (x : Grid) (hi : i = 0) (hj : j = N + 1) :
    FluidGL.setBoundaryVal N b x i j =
      (1 / 2) * (getF x (IX N 1 (N + 1)) + getF x (IX N 0 N)) := by
  simp only [FluidGL.setBoundaryVal]
  have e6 : i = 0 ∧ j = N + 1 := by omega
  have e7 : ¬(i = N + 1 ∧ j = 0) := by omega
  have e8 : ¬(i = N + 1 ∧ j = N + 1) := by omega
  rw [if_neg e8, if_neg e7, if_pos e6]
  rw [texel_in_range (by omega), texel_in_range (by omega)]
  with_unfolding_all rfl

theorem setBoundaryVal_corner10 {N b i j : ℕ} (x : Grid) (hi : i = N + 1) (hj : j = 0) :
    FluidGL.setBoundaryVal N b x i j =
      (1 / 2) * (getF x (IX N N 0) + getF x (IX N (N + 1) 1)) := by
  simp only [FluidGL.setBoundaryVal]
  have e7 : i = N + 1 ∧ j = 0 := by omega
  have e8 : ¬(i = N + 1 ∧ j = N + 1) := by omega
  rw [if_neg e8, if_pos e7]
  rw [texel_in_range (by omega), texel_in_range (by omega)]
  with_unfolding_all rfl

theorem setBoundaryVal_corner11 {N b i j : ℕ} (x : Grid) (hi : i = N + 1) (hj : j = N + 1) :
    FluidGL.setBoundaryVal N b x i j =
      (1 / 2) * (getF x (IX N N (N + 1)) + getF x (IX N (N + 1) N)) := by
  simp only [FluidGL.setBoundaryVal]
  have e8 : i = N + 1 ∧ j = N + 1 := by omega
  rw [if_pos e8]
  rw [texel_in_range (by omega), texel_in_range (by omega)]
  with_unfolding_all rfl

theorem length_setBoundaryP (N b : ℕ) (x : Grid) :
    (FluidGL.setBoundaryP N b x).length = (N + 2) * (N + 2) := by
  unfold FluidGL.setBoundaryP FluidGL.renderGrid
  rw [List.length_map, List.length_range]

theorem clampSeq_eq_clampTo (N : ℕ) (t : ℚ) :
    clampSeq N t = Claim.clampTo (1 / 2) ((N : ℚ) + 1 / 2) t := by
  have hN : (0 : ℚ) ≤ (N : ℚ) := Nat.cast_nonneg N
  simp only [clampSeq, Claim.clampTo, max_def, min_def]
  split_ifs <;> linarith

theorem advectVal_eq_formula (N : ℕ) (dt : ℚ) (source u v : Grid) (i j : ℕ) :
    advectVal N (dt * (N : ℚ)) source u v i j =
      Claim.advectFormula N ((N : ℚ) + 1 / 2) dt source u v i j := by
  simp only [advectVal, Claim.advectFormula, idx0, backPos, clampSeq_eq_clampTo]

theorem backPos_lb (N : ℕ) (dt0 q : ℚ) (i : ℕ) : 1 / 2 ≤ backPos N dt0 q i := by
  have hN : (0 : ℚ) ≤ (N : ℚ) := Nat.cast_nonneg N
  simp only [backPos, clampSeq]
  split_ifs <;> linarith

theorem backPos_ub (N : ℕ) (dt0 q : ℚ) (i : ℕ) : backPos N dt0 q i ≤ (N : ℚ) + 1 / 2 := by
  simp only [backPos, clampSeq]
  split_ifs <;> linarith

theorem idx0_le (N : ℕ) (dt0 q : ℚ) (i : ℕ) : idx0 N dt0 q i ≤ N := by
  unfold idx0
  rw [Int.toNat_le]
  have h1 : backPos N dt0 q i < (N : ℚ) + 1 := by
    have := backPos_ub N dt0 q i
    linarith
  have h2 : ⌊backPos N dt0 q i⌋ < (N : ℤ) + 1 := Int.floor_lt.mpr (by push_cast; linarith)
  omega

theorem glClamp_floor_le (t : ℚ) (N : ℕ) :
    (⌊FluidGL.glClamp t (1 / 2) (N : ℚ)⌋).toNat ≤ N := by
  rw [Int.toNat_le]
  have h := min_le_right (max t (1 / 2)) ((N : ℚ))
  calc ⌊FluidGL.glClamp t (1 / 2) (N : ℚ)⌋ ≤ ⌊(N : ℚ)⌋ := Int.floor_le_floor h
    _ = (N : ℤ) := Int.floor_natCast N

theorem getF_advectP_interior {N : ℕ} {dt : ℚ} {source u v : Grid} {b i j : ℕ}
    (hi1 : 1 ≤ i) (hi2 : i ≤ N) (hj1 : 1 ≤ j) (hj2 : j ≤ N) :
    getF (FluidGL.advectP N dt source u v b) (IX N i j) =
      Claim.advectFormula N (N : ℚ) dt source u v i j := by
  simp only [FluidGL.advectP]
  rw [getF_setBoundaryP_interior hi1 hi2 hj1 hj2, getF_renderGrid _ (by omega) (by omega)]
  simp only [FluidGL.advectVal, Claim.advectFormula, FluidGL.glClamp, Claim.clampTo]
  rw [texel_eq_getF (by omega) (by omega), texel_eq_getF (by omega) (by omega)]
  have hx := glClamp_floor_le ((i : ℚ) - dt * (N : ℚ) * getF u (IX N i j)) N
  have hy := glClamp_floor_le ((j : ℚ) - dt * (N : ℚ) * getF v (IX N i j)) N
  simp only [FluidGL.glClamp] at hx hy
  rw [texel_eq_getF (by omega) (by omega), texel_eq_getF (by omega) (by omega),
    texel_eq_getF (by omega) (by omega), texel_eq_getF (by omega) (by omega)]

theorem fadeVal_eq_formula (decay t : ℚ) : fadeVal decay t = Claim.fadeFormula decay t := by
  simp only [fadeVal, Claim.fadeFormula, Claim.clampTo, max_def, min_def]
  split_ifs <;> linarith

theorem fadeValP_eq_fadeVal (decay t : ℚ) : FluidGL.fadeVal decay t = fadeVal decay t := by
  simp only [FluidGL.fadeVal, FluidGL.glClamp, fadeVal, max_def, min_def]
  split_ifs <;> linarith

theorem fadeVal_nonneg (decay t : ℚ) : 0 ≤ fadeVal decay t := by
  simp only [fadeVal]
  split_ifs <;> linarith

theorem fadeVal_le (decay t : ℚ) : fadeVal decay t ≤ 255 := by
  simp only [fadeVal]
  split_ifs <;> linarith

theorem fadeVal_zero {decay : ℚ} (h : 0 ≤ decay) : fadeVal decay 0 = 0 := by
  simp only [fadeVal]
  split_ifs <;> linarith

theorem length_fadeStep (decay : ℚ) (x : Grid) : (fadeStep decay x).length = x.length :=
  List.length_map x _

theorem getF_fadeStep {decay : ℚ} {x : Grid} {p : ℕ} (hp : p < x.length) :
    getF (fadeStep decay x) p = fadeVal decay (getF x p) := by
  unfold fadeStep getF
  rw [List.getD_eq_getElem?_getD, List.getD_eq_getElem?_getD, List.getElem?_map,
    List.getElem?_eq_getElem hp, Option.map_some', Option.getD_some, Option.getD_some]

theorem getF_setBoundary_corner11 {N b : ℕ} {x : Grid} (hN : 1 ≤ N)
    (hlen : x.length = (N + 2) * (N + 2)) :
    getF (setBoundary N b x) (IX N (N + 1) (N + 1)) =
      (1 / 2) *
        (getF (setBoundary N b x) (IX N N (N + 1)) +
          getF (setBoundary N b x) (IX N (N + 1) N)) := by
  rw [getF_setBoundary_eq_edgeLoop (IX N N (N + 1)) (IX_ne (by omega) (by omega) (by omega))
      (IX_ne (by omega) (by omega) (by omega)) (IX_ne (by omega) (by omega) (by omega))
      (IX_ne (by omega) (by omega) (by omega)),
    getF_setBoundary_eq_edgeLoop (IX N (N + 1) N) (IX_ne (by omega) (by omega) (by omega))
      (IX_ne (by omega) (by omega) (by omega)) (IX_ne (by omega) (by omega) (by omega))
      (IX_ne (by omega) (by omega) (by omega))]
  simp only [setBoundary]
  rw [getF_setF_self
        (by rw [length_setF, length_setF, length_setF, length_edgeLoop, hlen]
            exact IX_lt (by omega) (by omega)),
      getF_setF_ne _ (IX_ne (by omega) (by omega) (by omega)),
      getF_setF_ne _ (IX_ne (by omega) (by omega) (by omega)),
      getF_setF_ne _ (IX_ne (by omega) (by omega) (by omega)),
      getF_setF_ne _ (IX_ne (by omega) (by omega) (by omega)),
      getF_setF_ne _ (IX_ne (by omega) (by omega) (by omega)),
      getF_setF_ne _ (IX_ne (by omega) (by omega) (by omega))]

set_option maxRecDepth 100000 in
theorem testProj_evalU : testProj.1 = testProjU := by with_unfolding_all rfl

set_option maxRecDepth 100000 in
theorem testProj_evalV : testProj.2.1 = testProjV := by with_unfolding_all rfl

/-- C1 counterexample: for `N = 4` and the recorded randomized velocity field
with entries in `[-1, 1]`, after `project(u, v, p, div)` the recomputed
discrete divergence at interior cell `(2, 2)` has magnitude at least `1/1000`
(it is in fact about `3.94`), so the claimed `1e-3` tolerance fails — and with
it the claim's universal quantification over velocity fields. -/
theorem C1_project_divergence_counterexample :
    1 / 1000 ≤ |divVal 4 testProj.1 testProj.2.1 2 2| := by
  rw [testProj_evalU, testProj_evalV]
  exact of_decide_eq_true (by with_unfolding_all rfl)

/-- C1 (amended): for `N = 4` and the recorded randomized velocity field with
entries in `[-1, 1]`, after `project(u, v, p, div)` the recomputed discrete
divergence `-0.5*N*((u[i+1,j]-u[i-1,j]) + (v[i,j+1]-v[i,j-1]))` on the
corrected `(u, v)` has magnitude below `6` at every interior cell — not below
the claimed `1e-3`: Stam's projection solves the compact 5-point Poisson
system, whose solution does not annihilate the wide central-difference
divergence recomputed here, so the residual stays of order one. -/
theorem C1_project_divergence_amended :
    ∀ i, i < 5 → ∀ j, j < 5 → 1 ≤ i → 1 ≤ j →
      |divVal 4 testProj.1 testProj.2.1 i j| < 6 := by
  simp only [testProj_evalU, testProj_evalV]
  exact of_decide_eq_true (by with_unfolding_all rfl)

theorem C1_project_divergence_witness :
    (1 : ℕ) ≤ 2 ∧ |divVal 4 testProj.1 testProj.2.1 2 2| < 6 :=
  ⟨by decide, C1_project_divergence_amended 2 (by decide) 2 (by decide) (by decide) (by decide)⟩

/-- C2 counterexample: the parallel variant's `diffuse('x0', 'x', 0)` performs
no relaxation at all (it enforces boundary conditions on the source and copies
it), so its result differs from the twenty double-buffered sweeps the claim
describes.  Instantiated at `N = 2`, `dt = 1`, `kappa = 1`, a unit impulse
source and a zero initial target: the code's parallel diffuse leaves `1` at
interior cell `(1, 1)`, the claimed iteration would produce about `0.246`. -/
theorem C2_diffuse_sweeps_counterexample :
    getF (FluidGL.diffuseP 2 0 testImpulse).2 (IX 2 1 1) ≠
      getF (Claim.diffuseJacobi 2 1 1 zeros16 testImpulse 0) (IX 2 1 1) :=
  of_decide_eq_true (by with_unfolding_all rfl)

/-- C2 (amended): the claim holds for the sequential variant — `diffuse`
computes `a = dt*kappa*N^2`, `c = 1 + 4a`, and performs exactly twenty
Gauss-Seidel sweeps of `x[i,j] = (x0[i,j] + a*(neighbours))/c` over the
interior cells (and only them: the sweep leaves every non-interior position
unchanged), enforcing boundary conditions between sweeps.  The parallel
variant's diffuse performs no relaxation (see the counterexample); its linear
solver shader, used only by projection, computes `(a/c)*(x0 + l + r + t + b)`
per cell, which coincides with the claimed formula exactly when `a = 1` —
third conjunct, the `a = 1, c = 4` case of projection. -/
theorem C2_diffuse_sweeps_amended :
    (∀ (N : ℕ) (dt kappa : ℚ) (x x0 : Grid) (b : ℕ),
        diffuse N dt x x0 kappa b = Claim.diffuseGS N dt kappa x x0 b) ∧
    (∀ (N : ℕ) (a cc : ℚ) (x0 y : Grid) (q : ℕ),
        (∀ i j, 1 ≤ i → i ≤ N → 1 ≤ j → j ≤ N → IX N i j ≠ q) →
        getF (sweep N a cc x0 y) q = getF y q) ∧
    (∀ (N : ℕ) (x x0 : Grid) (px py : ℕ),
        FluidGL.solveLinearVal N 1 4 x x0 px py =
          (FluidGL.texel N x0 px py +
            1 * (FluidGL.texel N x ((px : ℤ) - 1) py + FluidGL.texel N x ((px : ℤ) + 1) py +
                 FluidGL.texel N x px ((py : ℤ) - 1) +
                 FluidGL.texel N x px ((py : ℤ) + 1))) / 4) := by
  refine ⟨diffuse_eq_claimGS, fun N a cc x0 y q h => getF_sweep_of_ne h, fun N x x0 px py => ?_⟩
  simp only [FluidGL.solveLinearVal]
  ring

theorem C2_diffuse_sweeps_witness :
    getF (sweep 1 1 5 testSelf testSelf) 0 = getF testSelf 0 ∧ getF testSelf 0 = 0 :=
  ⟨C2_diffuse_sweeps_amended.2.1 1 1 5 testSelf testSelf 0
      (fun i j h1 h2 h3 h4 => by unfold IX; omega),
    by with_unfolding_all rfl⟩

/-- C3 counterexample: the parallel advect shader clamps the backtraced
coordinate to `[0.5, N]`, not `[0.5, N + 0.5]` as the claim states for both
variants.  At `N = 2`, `dt = 1`, with velocity `-100` at interior cell
`(2, 2)` and the source holding `8` in the right ghost column, the claimed
formula samples halfway into the ghost column and yields `4`; the code's
parallel advect yields `0`. -/
theorem C3_advect_bilinear_counterexample :
    getF (FluidGL.advectP 2 1 testAdvSrc testAdvU zeros16 0) (IX 2 2 2) ≠
      Claim.advectFormula 2 ((2 : ℚ) + 1 / 2) 1 testAdvSrc testAdvU zeros16 2 2 :=
  of_decide_eq_true (by with_unfolding_all rfl)

/-- C3 (amended): the claim holds for the sequential variant — for every
interior cell, `advect` writes the bilinear interpolation of the source at the
backtraced position `(i - dt*N*u[i,j], j - dt*N*v[i,j])`, each coordinate
clamped to `[0.5, N + 0.5]`, with `i0 = floor(x)`, `i1 = i0 + 1`, weights
`s1 = x - i0`, `s0 = 1 - s1` (and symmetrically in `y`), and boundary
conditions are then enforced on the target.  The parallel variant computes the
same formula except that its clamp interval is `[0.5, N]`. -/
theorem C3_advect_bilinear_amended :
    (∀ (N : ℕ) (dt : ℚ) (target source u v : Grid) (b i j : ℕ),
        target.length = (N + 2) * (N + 2) → 1 ≤ i → i ≤ N → 1 ≤ j → j ≤ N →
        getF (advect N dt target source u v b) (IX N i j) =
          Claim.advectFormula N ((N : ℚ) + 1 / 2) dt source u v i j) ∧
    (∀ (N : ℕ) (dt : ℚ) (source u v : Grid) (b i j : ℕ),
        1 ≤ i → i ≤ N → 1 ≤ j → j ≤ N →
        getF (FluidGL.advectP N dt source u v b) (IX N i j) =
          Claim.advectFormula N (N : ℚ) dt source u v i j) := by
  constructor
  · intro N dt target source u v b i j hlen hi1 hi2 hj1 hj2
    rw [getF_advect_interior hlen hi1 hi2 hj1 hj2, advectVal_eq_formula]
  · intro N dt source u v b i j hi1 hi2 hj1 hj2
    exact getF_advectP_interior hi1 hi2 hj1 hj2

theorem C3_advect_bilinear_witness :
    getF (advect 1 0 testSelf testSelf testSelf testSelf 0) (IX 1 1 1) =
        Claim.advectFormula 1 ((1 : ℚ) + 1 / 2) 0 testSelf testSelf testSelf 1 1 ∧
      getF (advect 1 0 testSelf testSelf testSelf testSelf 0) (IX 1 1 1) = 5 :=
  ⟨C3_advect_bilinear_amended.1 1 0 testSelf testSelf testSelf testSelf 0 1 1
      (by with_unfolding_all rfl) (by decide) (by decide) (by decide) (by decide),
    by with_unfolding_all rfl⟩

/-- C4: one simulation tick executes the claimed fixed order.  `update`
coincides, for every state, with interpreting the operation list
`updateOps = velocityStepOps ++ densityStepOps ++ [fade]`, whose entries
record the claimed buffer wiring: diffuse `u→u0` (kind 1) and `v→v0`
(kind 2); project `(u0,v0)` with `(u,v)` as pressure/divergence scratch;
advect `u0→u` and `v0→v` transported by `(u0,v0)`; project `(u,v)` with
`(u0,v0)` as scratch; then diffuse `x→x0`, advect `x0→x` by the just-updated
`(u,v)`, and decay.  Projection appears exactly twice in the velocity step,
at positions 2 and 5 — once before the advections (positions 3 and 4) and
once after. -/
theorem C4_update_order :
    (∀ (N : ℕ) (dt : ℚ) (s : SimState), update N dt s = runOps N dt s updateOps) ∧
    velocityStepOps.countP isProj = 2 ∧
    velocityStepOps[2]? = some (.proj .u0 .v0 .u .v) ∧
    velocityStepOps[5]? = some (.proj .u .v .u0 .v0) ∧
    velocityStepOps[3]? = some (.adv .u .u0 .u0 .v0 1) ∧
    velocityStepOps[4]? = some (.adv .v .v0 .u0 .v0 2) ∧
    velocityStepOps[0]? = some (.diff .u0 .u .visc 1) ∧
    velocityStepOps[1]? = some (.diff .v0 .v .visc 2) ∧
    densityStepOps[0]? = some (.diff .x0 .x .dens 0) ∧
    densityStepOps[1]? = some (.adv .x .x0 .u .v 0) ∧
    updateOps[8]? = some .fade ∧ updateOps.length = 9 := by
  refine ⟨fun N dt s => ?_, ?_, ?_, ?_, ?_, ?_, ?_, ?_, ?_, ?_, ?_, ?_⟩
  · simp only [update, velocityStep, densityStep, runOps, updateOps, velocityStepOps,
      densityStepOps, runOp, getBuf, setBuf, rateOf, List.foldl_cons, List.foldl_nil,
      List.cons_append, List.nil_append]
  all_goals decide

/-- C5 counterexample: in the parallel variant the `setupSetBoundary` shader
reads every value from the frozen input texture, so a corner ghost averages
the two adjacent edge ghosts of the input, not of the result.  At `N = 2`
with `7` at input cell `(1, 0)` and `9` at `(0, 1)` (zero elsewhere), the
rendered corner `(0, 0)` holds `8`, while both adjacent edge ghosts of the
result are `0`. -/
theorem C5_continuity_boundary_counterexample :
    getF (FluidGL.setBoundaryP 2 0 testCorner) (IX 2 0 0) ≠
      (getF (FluidGL.setBoundaryP 2 0 testCorner) (IX 2 1 0) +
        getF (FluidGL.setBoundaryP 2 0 testCorner) (IX 2 0 1)) / 2 :=
  of_decide_eq_true (by with_unfolding_all rfl)

/-- C5 (amended): after the sequential `setBoundary(field, 0)` (Continuity),
every edge ghost equals the adjacent interior value of the result and each
corner ghost equals the average of its two adjacent edge ghosts, exactly as
claimed.  The parallel boundary shader satisfies the four edge equalities on
its result as well, but each of its corner ghosts is the average of the two
adjacent edge ghosts of the input texture; on the result the averaging
property fails (see the counterexample). -/
theorem C5_continuity_boundary_amended :
    ∀ (N : ℕ) (x : Grid), 1 ≤ N → x.length = (N + 2) * (N + 2) →
      ((∀ k, 1 ≤ k → k ≤ N →
        getF (setBoundary N 0 x) (IX N 0 k) = getF (setBoundary N 0 x) (IX N 1 k) ∧
        getF (setBoundary N 0 x) (IX N (N + 1) k) = getF (setBoundary N 0 x) (IX N N k) ∧
        getF (setBoundary N 0 x) (IX N k 0) = getF (setBoundary N 0 x) (IX N k 1) ∧
        getF (setBoundary N 0 x) (IX N k (N + 1)) = getF (setBoundary N 0 x) (IX N k N)) ∧
      getF (setBoundary N 0 x) (IX N 0 0) =
        (getF (setBoundary N 0 x) (IX N 1 0) + getF (setBoundary N 0 x) (IX N 0 1)) / 2 ∧
      getF (setBoundary N 0 x) (IX N 0 (N + 1)) =
        (getF (setBoundary N 0 x) (IX N 1 (N + 1)) +
          getF (setBoundary N 0 x) (IX N 0 N)) / 2 ∧
      getF (setBoundary N 0 x) (IX N (N + 1) 0) =
        (getF (setBoundary N 0 x) (IX N N 0) +
          getF (setBoundary N 0 x) (IX N (N + 1) 1)) / 2 ∧
      getF (setBoundary N 0 x) (IX N (N + 1) (N + 1)) =
        (getF (setBoundary N 0 x) (IX N N (N + 1)) +
          getF (setBoundary N 0 x) (IX N (N + 1) N)) / 2) ∧
      ((∀ k, 1 ≤ k → k ≤ N →
        getF (FluidGL.setBoundaryP N 0 x) (IX N 0 k) =
          getF (FluidGL.setBoundaryP N 0 x) (IX N 1 k) ∧
        getF (FluidGL.setBoundaryP N 0 x) (IX N (N + 1) k) =
          getF (FluidGL.setBoundaryP N 0 x) (IX N N k) ∧
        getF (FluidGL.setBoundaryP N 0 x) (IX N k 0) =
          getF (FluidGL.setBoundaryP N 0 x) (IX N k 1) ∧
        getF (FluidGL.setBoundaryP N 0 x) (IX N k (N + 1)) =
          getF (FluidGL.setBoundaryP N 0 x) (IX N k N)) ∧
      getF (FluidGL.setBoundaryP N 0 x) (IX N 0 0) =
        (getF x (IX N 1 0) + getF x (IX N 0 1)) / 2 ∧
      getF (FluidGL.setBoundaryP N 0 x) (IX N 0 (N + 1)) =
        (getF x (IX N 1 (N + 1)) + getF x (IX N 0 N)) / 2 ∧
      getF (FluidGL.setBoundaryP N 0 x) (IX N (N + 1) 0) =
        (getF x (IX N N 0) + getF x (IX N (N + 1) 1)) / 2 ∧
      getF (FluidGL.setBoundaryP N 0 x) (IX N (N + 1) (N + 1)) =
        (getF x (IX N N (N + 1)) + getF x (IX N (N + 1) N)) / 2) := by
  intro N x hN hlen
  refine ⟨⟨fun k hk1 hk2 => ⟨?_, ?_, ?_, ?_⟩, ?_, ?_, ?_, ?_⟩,
    fun k hk1 hk2 => ⟨?_, ?_, ?_, ?_⟩, ?_, ?_, ?_, ?_⟩
  · rw [getF_setBoundary_left hk1 hk2 hlen, if_neg (by omega),
      getF_setBoundary_interior (le_refl 1) hN hk1 hk2]
  · rw [getF_setBoundary_right hk1 hk2 hlen, if_neg (by omega),
      getF_setBoundary_interior hN (le_refl N) hk1 hk2]
  · rw [getF_setBoundary_bottom hk1 hk2 hlen, if_neg (by omega),
      getF_setBoundary_interior hk1 hk2 (le_refl 1) hN]
  · rw [getF_setBoundary_top hk1 hk2 hlen, if_neg (by omega),
      getF_setBoundary_interior hk1 hk2 hN (le_refl N)]
  · rw [getF_setBoundary_corner00 hN hlen]; ring
  · rw [getF_setBoundary_corner01 hN hlen]; ring
  · rw [getF_setBoundary_corner10 hN hlen]; ring
  · rw [getF_setBoundary_corner11 hN hlen]; ring
  · rw [getF_setBoundaryP (by omega) (by omega), setBoundaryVal_left x rfl hk1 hk2,
      getF_setBoundaryP_interior (le_refl 1) hN hk1 hk2, if_neg (by decide), one_mul]
  · rw [getF_setBoundaryP (by omega) (by omega), setBoundaryVal_right x rfl hk1 hk2,
      getF_setBoundaryP_interior hN (le_refl N) hk1 hk2, if_neg (by decide), one_mul]
  · rw [getF_setBoundaryP (by omega) (by omega), setBoundaryVal_bottom x rfl hk1 hk2,
      getF_setBoundaryP_interior hk1 hk2 (le_refl 1) hN, if_neg (by decide), one_mul]
  · rw [getF_setBoundaryP (by omega) (by omega), setBoundaryVal_top x rfl hk1 hk2,
      getF_setBoundaryP_interior hk1 hk2 hN (le_refl N), if_neg (by decide), one_mul]
  · rw [getF_setBoundaryP (by omega) (by omega), setBoundaryVal_corner00 x rfl rfl]; ring
  · rw [getF_setBoundaryP (by omega) (by omega), setBoundaryVal_corner01 x rfl rfl]; ring
  · rw [getF_setBoundaryP (by omega) (by omega), setBoundaryVal_corner10 x rfl rfl]; ring
  · rw [getF_setBoundaryP (by omega) (by omega), setBoundaryVal_corner11 x rfl rfl]; ring

theorem C5_continuity_boundary_witness :
    getF (setBoundary 1 0 testSelf) (IX 1 0 1) = getF (setBoundary 1 0 testSelf) (IX 1 1 1) ∧
      getF (setBoundary 1 0 testSelf) (IX 1 0 1) = 5 :=
  ⟨(((C5_continuity_boundary_amended 1 testSelf (by decide)
        (by with_unfolding_all rfl)).1).1 1 (by decide) (by decide)).1,
    by with_unfolding_all rfl⟩

/-- C6: after `setBoundary(field, 1)` (reflect on the first axis), the left
and right ghost columns are the negated adjacent interior values while the
other two edges are copied as under Continuity; kind `2` is the symmetric
statement on the other axis.  This holds in the sequential variant and, for
the edges, in the parallel boundary shader as well. -/
theorem C6_reflective_boundary :
    ∀ (N : ℕ) (x : Grid), 1 ≤ N → x.length = (N + 2) * (N + 2) →
      ∀ k, 1 ≤ k → k ≤ N →
        (getF (setBoundary N 1 x) (IX N 0 k) = -(getF (setBoundary N 1 x) (IX N 1 k)) ∧
         getF (setBoundary N 1 x) (IX N (N + 1) k) =
           -(getF (setBoundary N 1 x) (IX N N k)) ∧
         getF (setBoundary N 1 x) (IX N k 0) = getF (setBoundary N 1 x) (IX N k 1) ∧
         getF (setBoundary N 1 x) (IX N k (N + 1)) = getF (setBoundary N 1 x) (IX N k N)) ∧
        (getF (setBoundary N 2 x) (IX N k 0) = -(getF (setBoundary N 2 x) (IX N k 1)) ∧
         getF (setBoundary N 2 x) (IX N k (N + 1)) =
           -(getF (setBoundary N 2 x) (IX N k N)) ∧
         getF (setBoundary N 2 x) (IX N 0 k) = getF (setBoundary N 2 x) (IX N 1 k) ∧
         getF (setBoundary N 2 x) (IX N (N + 1) k) =
           getF (setBoundary N 2 x) (IX N N k)) ∧
        (getF (FluidGL.setBoundaryP N 1 x) (IX N 0 k) =
           -(getF (FluidGL.setBoundaryP N 1 x) (IX N 1 k)) ∧
         getF (FluidGL.setBoundaryP N 1 x) (IX N (N + 1) k) =
           -(getF (FluidGL.setBoundaryP N 1 x) (IX N N k)) ∧
         getF (FluidGL.setBoundaryP N 1 x) (IX N k 0) =
           getF (FluidGL.setBoundaryP N 1 x) (IX N k 1) ∧
         getF (FluidGL.setBoundaryP N 1 x) (IX N k (N + 1)) =
           getF (FluidGL.setBoundaryP N 1 x) (IX N k N)) ∧
        (getF (FluidGL.setBoundaryP N 2 x) (IX N k 0) =
           -(getF (FluidGL.setBoundaryP N 2 x) (IX N k 1)) ∧
         getF (FluidGL.setBoundaryP N 2 x) (IX N k (N + 1)) =
           -(getF (FluidGL.setBoundaryP N 2 x) (IX N k N)) ∧
         getF (FluidGL.setBoundaryP N 2 x) (IX N 0 k) =
           getF (FluidGL.setBoundaryP N 2 x) (IX N 1 k) ∧
         getF (FluidGL.setBoundaryP N 2 x) (IX N (N + 1) k) =
           getF (FluidGL.setBoundaryP N 2 x) (IX N N k)) := by
  intro N x hN hlen k hk1 hk2
  refine ⟨⟨?_, ?_, ?_, ?_⟩, ⟨?_, ?_, ?_, ?_⟩, ⟨?_, ?_, ?_, ?_⟩, ?_, ?_, ?_, ?_⟩
  · rw [getF_setBoundary_left hk1 hk2 hlen, if_pos rfl,
      getF_setBoundary_interior (le_refl 1) hN hk1 hk2]
  · rw [getF_setBoundary_right hk1 hk2 hlen, if_pos rfl,
      getF_setBoundary_interior hN (le_refl N) hk1 hk2]
  · rw [getF_setBoundary_bottom hk1 hk2 hlen, if_neg (by omega),
      getF_setBoundary_interior hk1 hk2 (le_refl 1) hN]
  · rw [getF_setBoundary_top hk1 hk2 hlen, if_neg (by omega),
      getF_setBoundary_interior hk1 hk2 hN (le_refl N)]
  · rw [getF_setBoundary_bottom hk1 hk2 hlen, if_pos rfl,
      getF_setBoundary_interior hk1 hk2 (le_refl 1) hN]
  · rw [getF_setBoundary_top hk1 hk2 hlen, if_pos rfl,
      getF_setBoundary_interior hk1 hk2 hN (le_refl N)]
  · rw [getF_setBoundary_left hk1 hk2 hlen, if_neg (by omega),
      getF_setBoundary_interior (le_refl 1) hN hk1 hk2]
  · rw [getF_setBoundary_right hk1 hk2 hlen, if_neg (by omega),
      getF_setBoundary_interior hN (le_refl N) hk1 hk2]
  · rw [getF_setBoundaryP (by omega) (by omega), setBoundaryVal_left x rfl hk1 hk2,
      getF_setBoundaryP_interior (le_refl 1) hN hk1 hk2, if_pos rfl, neg_one_mul]
  · rw [getF_setBoundaryP (by omega) (by omega), setBoundaryVal_right x rfl hk1 hk2,
      getF_setBoundaryP_interior hN (le_refl N) hk1 hk2, if_pos rfl, neg_one_mul]
  · rw [getF_setBoundaryP (by omega) (by omega), setBoundaryVal_bottom x rfl hk1 hk2,
      getF_setBoundaryP_interior hk1 hk2 (le_refl 1) hN, if_neg (by decide), one_mul]
  · rw [getF_setBoundaryP (by omega) (by omega), setBoundaryVal_top x rfl hk1 hk2,
      getF_setBoundaryP_interior hk1 hk2 hN (le_refl N), if_neg (by decide), one_mul]
  · rw [getF_setBoundaryP (by omega) (by omega), setBoundaryVal_bottom x rfl hk1 hk2,
      getF_setBoundaryP_interior hk1 hk2 (le_refl 1) hN, if_pos rfl, neg_one_mul]
  · rw [getF_setBoundaryP (by omega) (by omega), setBoundaryVal_top x rfl hk1 hk2,
      getF_setBoundaryP_interior hk1 hk2 hN (le_refl N), if_pos rfl, neg_one_mul]
  · rw [getF_setBoundaryP (by omega) (by omega), setBoundaryVal_left x rfl hk1 hk2,
      getF_setBoundaryP_interior (le_refl 1) hN hk1 hk2, if_neg (by decide), one_mul]
  · rw [getF_setBoundaryP (by omega) (by omega), setBoundaryVal_right x rfl hk1 hk2,
      getF_setBoundaryP_interior hN (le_refl N) hk1 hk2, if_neg (by decide), one_mul]

theorem C6_reflective_boundary_witness :
    getF (setBoundary 1 1 testSelf) (IX 1 0 1) =
        -(getF (setBoundary 1 1 testSelf) (IX 1 1 1)) ∧
      getF (setBoundary 1 1 testSelf) (IX 1 0 1) = -5 :=
  ⟨((C6_reflective_boundary 1 testSelf (by decide) (by with_unfolding_all rfl) 1
      (by decide) (by decide)).1).1,
    by with_unfolding_all rfl⟩

theorem length_fadeStep_iterate (decay : ℚ) (x : Grid) (n : ℕ) :
    ((fadeStep decay)^[n] x).length = x.length := by
  induction n with
  | zero => rfl
  | succ m ih => rw [Function.iterate_succ_apply', length_fadeStep, ih]

/-- C7: the decay step subtracts the decay constant from every cell of the
density buffer (ghost ring included — the loop runs over the whole flat
array) and clamps the result to `[0, 255]`; the parallel fade shader computes
the same per-cell function; consequently any positive number of decay
applications leaves every cell in `[0, 255]`, and a cell already at `0` stays
at `0` for a nonnegative decay constant. -/
theorem C7_decay_clamps :
    ∀ (decay : ℚ) (x : Grid) (p : ℕ), p < x.length →
      getF (fadeStep decay x) p = Claim.fadeFormula decay (getF x p) ∧
      FluidGL.fadeVal decay (getF x p) = fadeVal decay (getF x p) ∧
      (∀ n, 1 ≤ n →
        0 ≤ getF ((fadeStep decay)^[n] x) p ∧ getF ((fadeStep decay)^[n] x) p ≤ 255) ∧
      (0 ≤ decay → getF x p = 0 → getF (fadeStep decay x) p = 0) := by
  intro decay x p hp
  refine ⟨?_, fadeValP_eq_fadeVal decay (getF x p), ?_, ?_⟩
  · rw [getF_fadeStep hp, fadeVal_eq_formula]
  · intro n hn
    obtain ⟨m, rfl⟩ : ∃ m, n = m + 1 := ⟨n - 1, by omega⟩
    rw [Function.iterate_succ_apply']
    have hplen : p < ((fadeStep decay)^[m] x).length := by
      rw [length_fadeStep_iterate]; exact hp
    rw [getF_fadeStep hplen]
    exact ⟨fadeVal_nonneg _ _, fadeVal_le _ _⟩
  · intro hd h0
    rw [getF_fadeStep hp, h0, fadeVal_zero hd]

theorem C7_decay_clamps_witness :
    getF (fadeStep 1 testSelf) 4 = Claim.fadeFormula 1 (getF testSelf 4) ∧
      getF (fadeStep 1 testSelf) 4 = 4 :=
  ⟨(C7_decay_clamps 1 testSelf 4 (by decide)).1, by with_unfolding_all rfl⟩

/-- C8 counterexample: the sequential variant performs a same-buffer diffuse
call without any rejection.  With `N = 1`, `dt = 1`, rate `1`, kind `0`, and
the aliased in-place semantics of passing the same array as target and source
(`diffuse(dt, x, x, diff, boundary)`), the code computes a definite result —
the fully relaxed grid of ones — rather than raising any error; there is no
buffer-identity check anywhere in the sequential variant. -/
theorem C8_self_aliasing_counterexample :
    diffuseSelf 1 1 testSelf 1 0 = [1, 1, 1, 1, 1, 1, 1, 1, 1] :=
  of_decide_eq_true (by with_unfolding_all rfl)

/-- C8 (amended): only the parallel variant rejects a same-buffer operation,
and only in its copy step: `copyPixels` (which implements the parallel
diffuse source-to-target copy) fails with the `copySelfError` message exactly
when the two texture names coincide, and succeeds exactly otherwise.  The
sequential `diffuse` and `advect`, and the parallel `advect`, perform aliased
calls with no check (see the counterexample). -/
theorem C8_self_aliasing_amended :
    ∀ source target : String,
      (FluidGL.copyPixels source target = Except.error FluidGL.copySelfError ↔
        source = target) ∧
      (FluidGL.copyPixels source target = Except.ok () ↔ source ≠ target) := by
  intro s t
  unfold FluidGL.copyPixels
  split_ifs with h <;> simp [h]

/-- C9: for each of the three boundary kinds, the sequential `setBoundary`
leaves every interior cell unchanged and preserves the buffer length, and the
parallel boundary shader writes every interior pixel back unchanged and
renders a full `(N+2) × (N+2)` target: the writes cover only the ghost
ring. -/
theorem C9_boundary_interior_frame :
    ∀ (N b : ℕ) (x : Grid), b = 0 ∨ b = 1 ∨ b = 2 →
      (∀ i j, 1 ≤ i → i ≤ N → 1 ≤ j → j ≤ N →
        getF (setBoundary N b x) (IX N i j) = getF x (IX N i j)) ∧
      (setBoundary N b x).length = x.length ∧
      (∀ i j, 1 ≤ i → i ≤ N → 1 ≤ j → j ≤ N →
        getF (FluidGL.setBoundaryP N b x) (IX N i j) = getF x (IX N i j)) ∧
      (FluidGL.setBoundaryP N b x).length = (N + 2) * (N + 2) := by
  intro N b x hb
  exact ⟨fun i j h1 h2 h3 h4 => getF_setBoundary_interior h1 h2 h3 h4,
    length_setBoundary N b x,
    fun i j h1 h2 h3 h4 => getF_setBoundaryP_interior h1 h2 h3 h4,
    length_setBoundaryP N b x⟩

theorem C9_boundary_interior_frame_witness :
    getF (setBoundary 1 0 testSelf) (IX 1 1 1) = getF testSelf (IX 1 1 1) ∧
      getF testSelf (IX 1 1 1) = 5 :=
  ⟨(C9_boundary_interior_frame 1 0 testSelf (Or.inl rfl)).1 1 1 (by decide) (by decide)
      (by decide) (by decide),
    by with_unfolding_all rfl⟩

/-- C10: for every resolution, time step, velocity value (of any magnitude)
and cell coordinate, the bilinear corner indices computed by the sequential
`advect` after clamping satisfy `i0, j0 ≤ N` and `i1, j1 ≤ N + 1` (they are
naturals, so the lower bounds `0 ≤ i0` and `1 ≤ i1` are automatic), and all
four sampled flattened indices lie inside the allocated `(N+2) × (N+2)`
buffer; likewise in the parallel advect shader, whose clamp to `[0.5, N]`
also keeps every sampled index in range. -/
theorem C10_advect_index_bounds :
    ∀ (N : ℕ) (dt0 qu qv : ℚ) (i j : ℕ) (tu tv : ℚ),
      (idx0 N dt0 qu i ≤ N ∧ 1 ≤ idx0 N dt0 qu i + 1 ∧ idx0 N dt0 qu i + 1 ≤ N + 1 ∧
       idx0 N dt0 qv j ≤ N ∧ idx0 N dt0 qv j + 1 ≤ N + 1 ∧
       IX N (idx0 N dt0 qu i) (idx0 N dt0 qv j) < (N + 2) * (N + 2) ∧
       IX N (idx0 N dt0 qu i) (idx0 N dt0 qv j + 1) < (N + 2) * (N + 2) ∧
       IX N (idx0 N dt0 qu i + 1) (idx0 N dt0 qv j) < (N + 2) * (N + 2) ∧
       IX N (idx0 N dt0 qu i + 1) (idx0 N dt0 qv j + 1) < (N + 2) * (N + 2)) ∧
      ((⌊FluidGL.glClamp tu (1 / 2) (N : ℚ)⌋).toNat ≤ N ∧
       (⌊FluidGL.glClamp tv (1 / 2) (N : ℚ)⌋).toNat + 1 ≤ N + 1 ∧
       IX N ((⌊FluidGL.glClamp tu (1 / 2) (N : ℚ)⌋).toNat + 1)
         ((⌊FluidGL.glClamp tv (1 / 2) (N : ℚ)⌋).toNat + 1) < (N + 2) * (N + 2)) := by
  intro N dt0 qu qv i j tu tv
  have h1 := idx0_le N dt0 qu i
  have h2 := idx0_le N dt0 qv j
  have h3 := glClamp_floor_le tu N
  have h4 := glClamp_floor_le tv N
  exact ⟨⟨h1, by omega, by omega, h2, by omega, IX_lt (by omega) (by omega),
      IX_lt (by omega) (by omega), IX_lt (by omega) (by omega),
      IX_lt (by omega) (by omega)⟩,
    h3, by omega, IX_lt (by omega) (by omega)⟩

end Fluid

namespace Fluid
-- cross-checks against an independent implementation of the same algorithms
example : getF (FluidGL.diffuseP 2 0 testImpulse).2 (IX 2 1 1) = 1 := by
  with_unfolding_all rfl
example : getF (Claim.diffuseJacobi 2 1 1 zeros16 testImpulse 0) (IX 2 1 1) =
    999385075330971885666457/4064231406647572522401601 := by
  with_unfolding_all rfl
example : getF (FluidGL.advectP 2 1 testAdvSrc testAdvU zeros16 0) (IX 2 2 2) = 0 := by
  with_unfolding_all rfl
example : Claim.advectFormula 2 ((2 : ℚ) + 1 / 2) 1 testAdvSrc testAdvU zeros16 2 2 = 4 := by
  with_unfolding_all rfl
example : divVal 4 testProjU testProjV 2 2 =
    -304803830246917579908212187/77371252455336267181195264 := by
  with_unfolding_all rfl
end Fluid
